import Mathlib

set_option autoImplicit false

namespace CPHD

/-- Error taxonomy of the codec, tagging each raise site in
`sarpy/io/phase_history/cphd.py` with the Python exception class it uses
(noted per constructor) and the spec's §7 name for it. -/
inductive Err where
  /-- `IOError`: missing path / not a file / wrong leading signature
  (spec: `NotAContainerError`). -/
  | notAContainer
  /-- `ValueError`: malformed version line, unhandled version, unhandled
  sample format (spec: `FormatError`). -/
  | format
  /-- `KeyError`: string identifier not present in the channel/support map
  (spec: `UnknownIdentifierError`). -/
  | unknownIdentifier
  /-- `ValueError`: ordinal index outside `[0, count)`
  (spec: `IndexOutOfRangeError`). -/
  | indexOutOfRange
  /-- `TypeError`: support-array access on a version-0.3 reader
  (spec: `UnsupportedOperationError`). -/
  | unsupportedOperation
  /-- `ValueError`: bad data dimensionality / byte-width / dtype on writes. -/
  | valueErr
  /-- `IndexError`: write start indices negative or extent overrunning the
  declared entry extent. -/
  | indexErr
  /-- `ValueError`: bad slice specification (spec: `RangeError`). -/
  | rangeErr
  /-- `TypeError`: unexpected argument type. -/
  | typeErr
  /-- `IOError` raised by `CPHDWriter1_0.close` on an incompletely written
  file (spec: `IncompleteWriteError`). -/
  | incompleteWrite
  /-- `IOError`: destination already exists at writer construction
  (spec: `AlreadyExistsError`). -/
  | alreadyExists
  deriving DecidableEq, Repr

deriving instance DecidableEq for Except

/-- Which error constructors model Python `IOError` (a.k.a. `OSError`):
these are exactly the ones the `except IOError` clause of `is_a` catches. -/
def Err.isIOError : Err → Bool
  | .notAContainer => true
  | .incompleteWrite => true
  | .alreadyExists => true
  | _ => false

/-! ### Python sequence-indexing semantics

The source reads and writes `numpy` arrays with ordinary Python slice
expressions (`a[start:stop:step]`, `a[start::step]`, `a[i]`).  The
definitions below embed CPython's slice-index adjustment
(`PySlice_AdjustIndices`) and slice-length computation, so each slice
expression in the source is translated to `pySliceIndices`/`pySlice` with
`none` standing for an omitted bound. -/

/-- CPython adjustment of the `start` bound of `a[start:stop:step]` against a
sequence of length `n`; `none` is an omitted bound. -/
def pyAdjustStart (n : Nat) (step : Int) : Option Int → Int
  | none => if step < 0 then (n : Int) - 1 else 0
  | some s =>
      if s < 0 then
        (if s + n < 0 then (if step < 0 then -1 else 0) else s + n)
      else if s ≥ n then (if step < 0 then (n : Int) - 1 else n)
      else s

/-- CPython adjustment of the `stop` bound of `a[start:stop:step]` against a
sequence of length `n`; `none` is an omitted bound. -/
def pyAdjustStop (n : Nat) (step : Int) : Option Int → Int
  | none => if step < 0 then -1 else n
  | some e =>
      if e < 0 then
        (if e + n < 0 then (if step < 0 then -1 else 0) else e + n)
      else if e ≥ n then (if step < 0 then (n : Int) - 1 else n)
      else e

/-- CPython slice length for adjusted bounds `start`, `stop` and step. -/
def pySliceLen (start stop step : Int) : Nat :=
  if step < 0 then
    (if stop < start then ((start - stop - 1) / (-step) + 1).toNat else 0)
  else
    (if start < stop then ((stop - start - 1) / step + 1).toNat else 0)

/-- The index sequence selected by the Python slice `start:stop:step` over a
sequence of length `n` (a slice with `step = 0` raises in Python and is never
produced by the codec's range validation; it selects nothing here). -/
def pySliceIndices (n : Nat) (start stop : Option Int) (step : Int) : List Int :=
  if step = 0 then []
  else
    let s := pyAdjustStart n step start
    let e := pyAdjustStop n step stop
    (List.range (pySliceLen s e step)).map (fun (j : Nat) => s + step * (j : Int))

/-- `l[start:stop:step]` on a Python list/1-D array. -/
def pySlice {α : Type} [Inhabited α] (l : List α) (start stop : Option Int)
    (step : Int) : List α :=
  (pySliceIndices l.length start stop step).map (fun i => l.getD i.toNat default)

/-- `l[i]` on a Python list: negative indices address from the end, anything
out of range raises `IndexError`. -/
def pyListGet {α : Type} [Inhabited α] (l : List α) (i : Int) : Except Err α :=
  if 0 ≤ i ∧ i < l.length then .ok (l.getD i.toNat default)
  else if -(l.length : Int) ≤ i ∧ i < 0 then .ok (l.getD (i + l.length).toNat default)
  else .error .indexErr

/-! ### Basic facts about `pySliceIndices` -/

theorem pySliceIndices_length (n : Nat) (start stop : Option Int) (step : Int)
    (h : step ≠ 0) :
    (pySliceIndices n start stop step).length =
      pySliceLen (pyAdjustStart n step start) (pyAdjustStop n step stop) step := by
  unfold pySliceIndices
  rw [if_neg h, List.length_map, List.length_range]

theorem pySliceIndices_get (n : Nat) (start stop : Option Int) (step : Int)
    (h : step ≠ 0) (j : Nat) (hj : j < (pySliceIndices n start stop step).length) :
    (pySliceIndices n start stop step).getD j 0 =
      pyAdjustStart n step start + step * j := by
  unfold pySliceIndices at hj ⊢
  rw [if_neg h] at hj ⊢
  rw [List.getD_eq_getElem _ _ hj, List.getElem_map, List.getElem_range]

/-! ### Metadata model

The XML metadata tree is bound by an external collaborator module; the codec
consumes only the channel list, the support-array list and the PVP field
layout.  The entry structures below carry exactly the fields the code under
`src/` reads, with the source's field names. -/

/-- One `cphd_meta.Data.Channels` entry (version 1.0). -/
structure ChannelEntry where
  Identifier : String
  NumVectors : Nat
  NumSamples : Nat
  PVPArrayByteOffset : Nat
  SignalArrayByteOffset : Nat
  deriving DecidableEq, Repr

instance : Inhabited ChannelEntry := ⟨⟨"", 0, 0, 0, 0⟩⟩

/-- One `cphd_meta.Data.SupportArrays` entry (version 1.0);
`BytesPerElement` is the element byte width declared for the entry. -/
structure SupportEntry where
  Identifier : String
  NumRows : Nat
  NumCols : Nat
  BytesPerElement : Nat
  ArrayByteOffset : Nat
  deriving DecidableEq, Repr

instance : Inhabited SupportEntry := ⟨⟨"", 0, 0, 0, 0⟩⟩

/-- One `cphd_meta.Data.ArraySize` entry (version 0.3). -/
structure ArraySizeEntry where
  NumVectors : Nat
  NumSamples : Nat
  deriving DecidableEq, Repr

/-- A channel/support reference as the Python code receives it:
either a string identifier or an integer ordinal (`index : int|str`). -/
inductive PyIndex where
  | str (s : String)
  | num (n : Int)
  deriving DecidableEq, Repr

/-- `int(c)` for a single character: its decimal digit value, if any. -/
def charDigit? (c : Char) : Option Nat :=
  if '0' ≤ c ∧ c ≤ '9' then some (c.toNat - '0'.toNat) else none

/-- Accumulate the decimal value of a digit string; `none` on a non-digit. -/
def digitsVal? : List Char → Nat → Option Nat
  | [], acc => some acc
  | c :: rest, acc =>
      match charDigit? c with
      | some d => digitsVal? rest (acc * 10 + d)
      | none => none

/-- Python `int(s)` on a string: an optional sign followed by decimal
digits converts, anything else raises `ValueError` (surrounding whitespace
and digit-group underscores, which Python also accepts, do not occur in the
identifiers this codec handles and are not modelled). -/
def pyIntOfChars : List Char → Option Int
  | [] => none
  | '-' :: rest => if rest.isEmpty then none else (digitsVal? rest 0).map (fun n => -(n : Int))
  | '+' :: rest => if rest.isEmpty then none else (digitsVal? rest 0).map (fun n => (n : Int))
  | l => (digitsVal? l 0).map (fun n => (n : Int))

/-- `sarpy.compliance.int_func` is Python's `int`: an integer is returned
unchanged, a decimal string is converted, any other string raises
`ValueError`. -/
def intFunc : PyIndex → Except Err Int
  | .num n => .ok n
  | .str s =>
      match pyIntOfChars s.toList with
      | some n => .ok n
      | none => .error .valueErr

/-- Lookup in a Python dict built by `for i, entry in enumerate(entries):
map[entry.Identifier] = i` — a later assignment overwrites an earlier one,
so the result is the last enumeration position carrying the key. -/
def dictLookupFrom (ids : List String) (base : Nat) (key : String)
    (acc : Option Nat) : Option Nat :=
  match ids with
  | [] => acc
  | i :: rest => dictLookupFrom rest (base + 1) key (if i = key then some base else acc)

/-- `self._channel_map.get(key)` / `self._support_map.get(key)` over the
identifiers in enumeration order. -/
def channelMapLookup (ids : List String) (key : String) : Option Nat :=
  dictLookupFrom ids 0 key none

/-- A user-supplied range specification, `None | int | (start[, stop[,
stride]])`. -/
inductive RangeSpec where
  | all
  | one (i : Int)
  | r1 (start : Int)
  | r2 (start stop : Int)
  | r3 (start stop stride : Int)
  deriving DecidableEq, Repr

/-- Modelled from the spec: `sarpy.io.general.utils.validate_range` is not
under `src/`; per §4.1 it resolves a specification against a length with
defaults `(0, length, 1)`, keeps `start == -1` with negative stride as the
first-class reverse-from-end case, and fails with `RangeError` when the
resolved bounds fall outside `[0, length]` or the stride is zero. -/
def validate_range (spec : RangeSpec) (n : Nat) : Except Err (Int × Int × Int) :=
  let t : Int × Int × Int :=
    match spec with
    | .all => (0, n, 1)
    | .one i => (i, i + 1, 1)
    | .r1 s => (s, n, 1)
    | .r2 s e => (s, e, 1)
    | .r3 s e k => (s, e, k)
  if t.2.2 = 0 then .error .rangeErr
  else if t.1 = -1 ∧ t.2.2 < 0 then .ok t
  else if 0 ≤ t.1 ∧ t.1 ≤ n ∧ 0 ≤ t.2.1 ∧ t.2.1 ≤ n then .ok t
  else .error .rangeErr

/-! ### The version 1.0 reader

The reader state binds the metadata-declared entries to access functions.
The `BIPChipper` signal view and the raw-to-complex sample transform are
external collaborators, kept abstract as the per-channel function `chip`;
numeric sample/parameter values are modelled as exact integers (the
`numpy.cast` `float32` narrowing of the amplitude scale is the identity on
exact values), and a support cell's per-cell depth is folded into the
abstract element value. -/

/-- The result of a signal read, which `numpy` hands back either as a 1-D or
a 2-D array. -/
inductive SigArray where
  | one (v : List Int)
  | two (m : List (List Int))
  deriving DecidableEq, Repr

/-- State of a constructed `CPHDReader1_0`: the bound metadata entries, the
PVP field layout and memmap contents keyed by channel identifier, the
per-channel signal chipper, and the support-block backing file. -/
structure Reader1_0 where
  Channels : List ChannelEntry
  SupportArrays : Option (List SupportEntry)
  /-- field names of `cphd_meta.PVP.get_vector_dtype()`. -/
  pvpFields : List String
  /-- `self._pvp_memmap[identifier][field]`: one value per vector row. -/
  pvpField : String → String → List Int
  /-- `self._pvp_memmap[identifier]`: whole records, one per vector row. -/
  pvpRows : String → List Int
  /-- the per-channel `BIPChipper` over resolved `(start, stop, stride)`
  row/column ranges (external collaborator). -/
  chip : Nat → (Int × Int × Int) → (Int × Int × Int) → SigArray
  /-- `cphd_header.SUPPORT_BLOCK_BYTE_OFFSET`. -/
  SUPPORT_BLOCK_BYTE_OFFSET : Nat
  /-- the element decoded from the file at a given byte offset, backing the
  support-array memmaps. -/
  supportFile : Nat → Int

/-- `CPHDReader1_0._validate_index`: a string is resolved through the
channel map (`KeyError` when absent), anything else is converted with
`int_func` and bounds-checked against `Data.NumCPHDChannels`
(`= len(Data.Channels)`). -/
def Reader1_0.validate_index (r : Reader1_0) : PyIndex → Except Err Nat
  | .str s =>
      match channelMapLookup (r.Channels.map ChannelEntry.Identifier) s with
      | some i => .ok i
      | none => .error .unknownIdentifier
  | .num n =>
      if 0 ≤ n ∧ n < r.Channels.length then .ok n.toNat
      else .error .indexOutOfRange

/-- `CPHDReader1_0.read_pvp_variable`. -/
def Reader1_0.read_pvp_variable (r : Reader1_0) (vbl : String) (index : PyIndex)
    (the_range : RangeSpec) : Except Err (Option (List Int)) := do
  let int_index ← r.validate_index index
  let channel := r.Channels.getD int_index default
  let rng ← validate_range the_range channel.NumVectors
  if vbl ∈ r.pvpFields then
    .ok (some (pySlice (r.pvpField channel.Identifier vbl) (some rng.1) (some rng.2.1) rng.2.2))
  else
    .ok none

/-- `CPHDReader1_0.read_pvp_array`. -/
def Reader1_0.read_pvp_array (r : Reader1_0) (index : PyIndex)
    (the_range : RangeSpec) : Except Err (List Int) := do
  let int_index ← r.validate_index index
  let channel := r.Channels.getD int_index default
  let rng ← validate_range the_range channel.NumVectors
  .ok (pySlice (r.pvpRows channel.Identifier) (some rng.1) (some rng.2.1) rng.2.2)

/-- `mem_map[rows, cols]` for explicit index lists on both axes. -/
def gather (m : Nat → Nat → Int) (rows cols : List Int) : List (List Int) :=
  rows.map (fun i => cols.map (fun j => m i.toNat j.toNat))

/-- Cell `(i, j)` of the `numpy.memmap` a support read opens: row-major
elements of the entry's declared byte width starting at
`SUPPORT_BLOCK_BYTE_OFFSET + ArrayByteOffset`. -/
def supportCell (r : Reader1_0) (the_entry : SupportEntry) (i j : Nat) : Int :=
  r.supportFile (r.SUPPORT_BLOCK_BYTE_OFFSET + the_entry.ArrayByteOffset +
    (i * the_entry.NumCols + j) * the_entry.BytesPerElement)

/-- `CPHDReader1_0.read_support_array`: entry resolution (ordinal subscripts
the support list with Python semantics, a string is searched for its first
match), range validation, a fresh memmap at `SUPPORT_BLOCK_BYTE_OFFSET +
ArrayByteOffset`, then the four-branch slice that special-cases
`start == -1` with negative stride on each axis. -/
def Reader1_0.read_support_array (r : Reader1_0) (index : PyIndex)
    (dim1_range dim2_range : RangeSpec) : Except Err (List (List Int)) := do
  let sas ← match r.SupportArrays with
    | some l => Except.ok l
    | none => Except.error Err.typeErr
  let the_entry ←
    match index with
    | .num n => pyListGet sas n
    | .str s =>
        match sas.find? (fun e => e.Identifier = s) with
        | some e => Except.ok e
        | none => Except.error Err.unknownIdentifier
  let range1 ← validate_range dim1_range the_entry.NumRows
  let range2 ← validate_range dim2_range the_entry.NumCols
  let m := supportCell r the_entry
  if range1.1 = -1 ∧ range1.2.2 < 0 ∧ range2.1 = -1 ∧ range2.2.2 < 0 then
    .ok (gather m (pySliceIndices the_entry.NumRows (some range1.1) none range1.2.2)
                  (pySliceIndices the_entry.NumCols (some range2.1) none range2.2.2))
  else if range1.1 = -1 ∧ range1.2.2 < 0 then
    .ok (gather m (pySliceIndices the_entry.NumRows (some range1.1) none range1.2.2)
                  (pySliceIndices the_entry.NumCols (some range2.1) (some range2.2.1) range2.2.2))
  else if range2.1 = -1 ∧ range2.2.2 < 0 then
    .ok (gather m (pySliceIndices the_entry.NumRows (some range1.1) (some range1.2.1) range1.2.2)
                  (pySliceIndices the_entry.NumCols (some range2.1) none range2.2.2))
  else
    .ok (gather m (pySliceIndices the_entry.NumRows (some range1.1) (some range1.2.1) range1.2.2)
                  (pySliceIndices the_entry.NumCols (some range2.1) (some range2.2.1) range2.2.2))

/-- The amplitude-scale application of `CPHDReader._fetch`:
`scale.size == 1` multiplies the whole array by the scalar, a 1-D signal
result is multiplied elementwise, a 2-D one has the scale broadcast over the
row axis (`scale[:, numpy.newaxis] * data`). -/
def scaleSig (scale : List Int) (data : SigArray) : SigArray :=
  if scale.length = 1 then
    match data with
    | .one v => .one (v.map (fun z => scale.headD 0 * z))
    | .two m => .two (m.map (fun row => row.map (fun z => scale.headD 0 * z)))
  else
    match data with
    | .one v => .one (List.zipWith (fun s z => s * z) scale v)
    | .two m => .two (List.zipWith (fun s row => row.map (fun z => s * z)) scale m)

/-- `CPHDReader._fetch` over resolved ranges and a validated integer index:
read the signal chip, then fetch the `AmpSF` scale over the same row range
and apply it when present (`chipper._reorder_arguments` is the identity for
the symmetry `(False, False, False)` used here). -/
def Reader1_0.fetch (r : Reader1_0) (range1 range2 : Int × Int × Int)
    (index : Nat) : Except Err SigArray := do
  let data := r.chip index range1 range2
  let scale ← r.read_pvp_variable "AmpSF" (.num index) (.r3 range1.1 range1.2.1 range1.2.2)
  match scale with
  | none => .ok data
  | some s => .ok (scaleSig s data)

/-- `CPHDReader.read_chip` / `__call__`: validate the channel reference,
then `_fetch`. -/
def Reader1_0.read_chip (r : Reader1_0) (dim1range dim2range : Int × Int × Int)
    (index : PyIndex) : Except Err SigArray := do
  let i ← r.validate_index index
  r.fetch dim1range dim2range i

/-! ### The version 0.3 reader -/

/-- State of a constructed `CPHDReader0_3` (no support arrays exist in the
0.3 metadata tree). -/
structure Reader0_3 where
  ArraySize : List ArraySizeEntry
  pvpFields : List String
  pvpField : Nat → String → List Int
  /-- `self._pvp_memmap[i]`: whole records, one per vector row. -/
  pvpRows : Nat → List Int
  chip : Nat → (Int × Int × Int) → (Int × Int × Int) → SigArray

/-- `CPHDReader0_3._validate_index`: `int_func(index)` then a bounds check —
no identifier resolution exists on this path. -/
def Reader0_3.validate_index (r : Reader0_3) (index : PyIndex) : Except Err Nat := do
  let n ← intFunc index
  if 0 ≤ n ∧ n < r.ArraySize.length then .ok n.toNat
  else .error .indexOutOfRange

/-- `CPHDReader0_3.read_pvp_array`. -/
def Reader0_3.read_pvp_array (r : Reader0_3) (index : PyIndex)
    (the_range : RangeSpec) : Except Err (List Int) := do
  let int_index ← r.validate_index index
  let entry := r.ArraySize.getD int_index ⟨0, 0⟩
  let rng ← validate_range the_range entry.NumVectors
  .ok (pySlice (r.pvpRows int_index) (some rng.1) (some rng.2.1) rng.2.2)

/-- `CPHDReader0_3.read_support_array` raises
`TypeError('CPHD 0.3 does not support Support Arrays.')` unconditionally. -/
def Reader0_3.read_support_array (_r : Reader0_3) (_index : PyIndex)
    (_dim1_range _dim2_range : RangeSpec) : Except Err (List (List Int)) :=
  .error .unsupportedOperation

/-- `CPHDReader0_3.read_support_block` raises
`TypeError('CPHD 0.3 does not have support arrays.')` unconditionally. -/
def Reader0_3.read_support_block (_r : Reader0_3) :
    Except Err (List (List (List Int))) :=
  .error .unsupportedOperation

/-! ### Version detection, `CPHDDetails` and `is_a`

File text is modelled as a list of characters.  The version-specific header
parser (`CPHDHeader.from_file_object`) and the XML binder are external
collaborators whose outcomes the file model carries as given `Except`
results; everything in between — signature check, version-line split,
prefix dispatch — is code under `src/`. -/

/-- ASCII whitespace as stripped by Python's `bytes.strip()`. -/
def isSpaceChar (c : Char) : Bool :=
  c = ' ' ∨ c = '\t' ∨ c = '\n' ∨ c = '\r' ∨ c = '\x0b' ∨ c = '\x0c'

/-- Python `.strip()`: drop leading and trailing whitespace. -/
def stripChars (l : List Char) : List Char :=
  ((l.dropWhile isSpaceChar).reverse.dropWhile isSpaceChar).reverse

/-- `s.startswith(pre)`. -/
def listStartsWith : List Char → List Char → Bool
  | [], _ => true
  | _ :: _, [] => false
  | a :: as, b :: bs => a = b && listStartsWith as bs

/-- Python `split(sep)` on a single-character separator. -/
def splitChar (sep : Char) : List Char → List (List Char)
  | [] => [[]]
  | c :: rest =>
      match splitChar sep rest with
      | [] => [[]]
      | h :: t => if c = sep then [] :: h :: t else (c :: h) :: t

/-- `fi.readline().strip()` at the start of the file: the first line without
its terminator, stripped. -/
def headLineC (content : List Char) : List Char :=
  stripChars (content.takeWhile (fun c => c ≠ '\n'))

/-- `CPHDDetails._extract_version`: split the head line on `/` and require
exactly two parts; the version is the stripped second part. -/
def extractVersionC (headLine : List Char) : Except Err (List Char) :=
  let parts := splitChar '/' headLine
  if parts.length ≠ 2 then .error .format
  else .ok (stripChars (parts.getD 1 []))

/-- The two reader variants `CPHDReader.__new__` can construct. -/
inductive ReaderVariant where
  | v0_3
  | v1_0
  deriving DecidableEq, Repr

/-- Input to `CPHDDetails.__init__`: the path checks, the file text, and the
outcomes of the two external parsing collaborators. -/
structure FileModel where
  pathExists : Bool
  isFile : Bool
  content : List Char
  /-- outcome of `CPHDHeader.from_file_object` / `CPHDHeader0_3.from_file_object`. -/
  headerOutcome : Except Err Unit
  /-- outcome of reading the XML block and binding it (`parse_xml_from_string`
  + `CPHDType.from_node`). -/
  xmlOutcome : Except Err Unit

/-- The parsed-file handle `CPHDDetails`. -/
structure DetailsModel where
  cphd_version : List Char
  deriving DecidableEq, Repr

/-- `CPHDDetails.__init__`: path existence and signature checks raise
`IOError`; `_extract_version`, `_extract_header` and `_extract_cphd` follow,
the latter two dispatching on the version prefix and raising `ValueError`
for an unhandled version. -/
def cphdDetailsInit (f : FileModel) : Except Err DetailsModel := do
  if ¬ (f.pathExists && f.isFile) then throw Err.notAContainer
  if ¬ listStartsWith ("CPHD".toList) (f.content.take 10) then throw Err.notAContainer
  let v ← extractVersionC (headLineC f.content)
  -- _extract_header
  if listStartsWith ("0.3".toList) v then f.headerOutcome
  else if listStartsWith ("1.0".toList) v then f.headerOutcome
  else throw Err.format
  -- _extract_cphd (same dispatch for the metadata type, then the XML bind)
  if listStartsWith ("0.3".toList) v ∨ listStartsWith ("1.0".toList) v then f.xmlOutcome
  else throw Err.format
  pure ⟨v⟩

/-- `CPHDReader.__new__`: dispatch on the details' version by prefix match. -/
def cphdReaderNew (d : DetailsModel) : Except Err ReaderVariant :=
  if listStartsWith ("0.3".toList) d.cphd_version then .ok .v0_3
  else if listStartsWith ("1.0".toList) d.cphd_version then .ok .v1_0
  else .error .format

/-- `is_a`: build `CPHDDetails` and a reader from it, catching `IOError`
(and only `IOError`) as `None`. -/
def isA (f : FileModel) : Except Err (Option ReaderVariant) :=
  match (do
      let d ← cphdDetailsInit f
      cphdReaderNew d : Except Err ReaderVariant) with
  | .ok rv => .ok (some rv)
  | .error e => if e.isIOError then .ok none else .error e

/-! ### The version 1.0 writer

`CPHDWriter1_0` holds the fixed metadata and a mutable writing state
(per-identifier written counts, the `r+` memmap contents, the closed flag).
The state is threaded explicitly; a raised exception leaves the state as it
was, which the embedding renders by returning an error without a state.
Per-vector record dtype agreement (`_verify_dtype`) and array
dimensionality are enforced by the embedding's types; byte widths are
carried explicitly. -/

/-- Metadata fixed at writer construction. -/
structure WriterMeta where
  Channels : List ChannelEntry
  SupportArrays : Option (List SupportEntry)
  /-- itemsize of `binary_format_string_to_dtype(Data.SignalArrayFormat)`. -/
  signalItemSize : Nat

/-- A two-dimensional `numpy` array handed to a write call: its shape, its
per-cell byte width, and its cell values. -/
structure Mat2 where
  rows : Nat
  cols : Nat
  itemBytes : Nat
  entry : Nat → Nat → Int

/-- The writer's mutable state: `_writing_state` counters, memmap contents,
emitted-warning count and the closed flag. -/
structure WState where
  pvp : String → Nat
  signal : String → Nat
  support : String → Nat
  pvpMem : String → Nat → Int
  signalMem : String → Nat → Nat → Int
  supportMem : String → Nat → Nat → Int
  warnings : Nat
  closed : Bool

/-- `CPHDWriter1_0._validate_channel_index` (same shape as the reader's). -/
def WriterMeta.validate_channel_index (w : WriterMeta) : PyIndex → Except Err Nat
  | .str s =>
      match channelMapLookup (w.Channels.map ChannelEntry.Identifier) s with
      | some i => .ok i
      | none => .error .unknownIdentifier
  | .num n =>
      if 0 ≤ n ∧ n < w.Channels.length then .ok n.toNat
      else .error .indexOutOfRange

/-- `CPHDWriter1_0._validate_channel_key`. -/
def WriterMeta.validate_channel_key (w : WriterMeta) : PyIndex → Except Err String
  | .str s =>
      if (channelMapLookup (w.Channels.map ChannelEntry.Identifier) s).isSome then .ok s
      else .error .unknownIdentifier
  | .num n =>
      if 0 ≤ n ∧ n < w.Channels.length then .ok (w.Channels.getD n.toNat default).Identifier
      else .error .indexOutOfRange

/-- The identifiers `_support_map` is built over (`{}` when no support
arrays are declared). -/
def WriterMeta.supportIds (w : WriterMeta) : List String :=
  (w.SupportArrays.getD []).map SupportEntry.Identifier

/-- `CPHDWriter1_0._validate_support_index`; the ordinal path takes
`len(Data.SupportArrays)`, which raises `TypeError` when that field is
`None`. -/
def WriterMeta.validate_support_index (w : WriterMeta) : PyIndex → Except Err Nat
  | .str s =>
      match channelMapLookup w.supportIds s with
      | some i => .ok i
      | none => .error .unknownIdentifier
  | .num n =>
      match w.SupportArrays with
      | none => .error .typeErr
      | some l => if 0 ≤ n ∧ n < l.length then .ok n.toNat else .error .indexOutOfRange

/-- `CPHDWriter1_0._validate_support_key`. -/
def WriterMeta.validate_support_key (w : WriterMeta) : PyIndex → Except Err String
  | .str s =>
      if (channelMapLookup w.supportIds s).isSome then .ok s
      else .error .unknownIdentifier
  | .num n =>
      match w.SupportArrays with
      | none => .error .typeErr
      | some l =>
          if 0 ≤ n ∧ n < l.length then .ok (l.getD n.toNat default).Identifier
          else .error .indexOutOfRange

/-- `CPHDWriter1_0.write_pvp_block`: resolve the channel, bounds-check the
start index and extent against `NumVectors`, write the rows into the memmap,
accumulate the per-identifier written count, and warn when the count exceeds
the declared total. -/
def write_pvp_block (w : WriterMeta) (st : WState) (identifier : PyIndex)
    (data : List Int) (start_index : Int) : Except Err WState := do
  let int_index ← w.validate_channel_index identifier
  let key ← w.validate_channel_key identifier
  let entry := w.Channels.getD int_index default
  if start_index < 0 then throw Err.indexErr
  if (start_index + data.length : Int) > entry.NumVectors then throw Err.indexErr
  let newCount := st.pvp key + data.length
  pure { st with
    pvpMem := fun id r =>
      if id = key ∧ start_index.toNat ≤ r ∧ r < start_index.toNat + data.length then
        data.getD (r - start_index.toNat) 0
      else st.pvpMem id r
    pvp := fun id => if id = key then newCount else st.pvp id
    warnings := if newCount > entry.NumVectors then st.warnings + 1 else st.warnings }

/-- `CPHDWriter1_0.__call__` (signal write, aliased by `write_chip`):
resolve the channel, check the supplied bytes-per-pixel against the signal
memmap's itemsize, bounds-check start indices and extents against
`(NumVectors, NumSamples)`, write, count, and warn past the total. -/
def write_signal (w : WriterMeta) (st : WState) (data : Mat2)
    (start_indices : Int × Int) (identifier : PyIndex) : Except Err WState := do
  let pixel_count := data.rows * data.cols
  let int_index ← w.validate_channel_index identifier
  let key ← w.validate_channel_key identifier
  let entry := w.Channels.getD int_index default
  if data.itemBytes ≠ w.signalItemSize then throw Err.valueErr
  if start_indices.1 < 0 ∨ start_indices.2 < 0 then throw Err.indexErr
  if (start_indices.1 + data.rows : Int) > entry.NumVectors ∨
      (start_indices.2 + data.cols : Int) > entry.NumSamples then throw Err.indexErr
  let r0 := start_indices.1.toNat
  let c0 := start_indices.2.toNat
  let newCount := st.signal key + pixel_count
  pure { st with
    signalMem := fun id r c =>
      if id = key ∧ r0 ≤ r ∧ r < r0 + data.rows ∧ c0 ≤ c ∧ c < c0 + data.cols then
        data.entry (r - r0) (c - c0)
      else st.signalMem id r c
    signal := fun id => if id = key then newCount else st.signal id
    warnings :=
      if newCount > entry.NumVectors * entry.NumSamples then st.warnings + 1
      else st.warnings }

/-- `CPHDWriter1_0.write_support_block`: as the signal write, but against the
support entry's `(NumRows, NumCols)` and declared `BytesPerElement`. -/
def write_support_block (w : WriterMeta) (st : WState) (identifier : PyIndex)
    (data : Mat2) (start_indices : Int × Int) : Except Err WState := do
  let pixel_count := data.rows * data.cols
  let int_index ← w.validate_support_index identifier
  let key ← w.validate_support_key identifier
  let entry := (w.SupportArrays.getD []).getD int_index default
  if data.itemBytes ≠ entry.BytesPerElement then throw Err.valueErr
  if start_indices.1 < 0 ∨ start_indices.2 < 0 then throw Err.indexErr
  if (start_indices.1 + data.rows : Int) > entry.NumRows ∨
      (start_indices.2 + data.cols : Int) > entry.NumCols then throw Err.indexErr
  let r0 := start_indices.1.toNat
  let c0 := start_indices.2.toNat
  let newCount := st.support key + pixel_count
  pure { st with
    supportMem := fun id r c =>
      if id = key ∧ r0 ≤ r ∧ r < r0 + data.rows ∧ c0 ≤ c ∧ c < c0 + data.cols then
        data.entry (r - r0) (c - c0)
      else st.supportMem id r c
    support := fun id => if id = key then newCount else st.support id
    warnings :=
      if newCount > entry.NumRows * entry.NumCols then st.warnings + 1
      else st.warnings }

/-- The `status` flag and per-block shortfall messages accumulated by
`_check_fully_written`; each message entry is
`(identifier, written, declared)`. -/
structure WriteCheck where
  status : Bool
  pvp_message : List (String × Nat × Nat)
  signal_message : List (String × Nat × Nat)
  support_message : List (String × Nat × Nat)
  deriving DecidableEq, Repr

/-- `CPHDWriter1_0._check_fully_written`.  The channel loop flips `status`
and appends a message on each PVP/signal shortfall.  In the support loop the
source sets `status = False` for every iterated support entry before testing
the shortfall — only the message append is guarded by the comparison — and
this definition reproduces that behaviour exactly. -/
def check_fully_written (w : WriterMeta) (st : WState) : WriteCheck :=
  if st.closed then ⟨true, [], [], []⟩
  else
    let afterChannels := w.Channels.foldl (fun acc entry =>
      let pvp_rows := entry.NumVectors
      let acc :=
        if st.pvp entry.Identifier < pvp_rows then
          { acc with
            status := false
            pvp_message := acc.pvp_message ++ [(entry.Identifier, st.pvp entry.Identifier, pvp_rows)] }
        else acc
      let signal_pixels := entry.NumVectors * entry.NumSamples
      if st.signal entry.Identifier < signal_pixels then
        { acc with
          status := false
          signal_message := acc.signal_message ++ [(entry.Identifier, st.signal entry.Identifier, signal_pixels)] }
      else acc) ⟨true, [], [], []⟩
    match w.SupportArrays with
    | none => afterChannels
    | some l =>
        l.foldl (fun acc entry =>
          let acc := { acc with status := false }
          let support_pixels := entry.NumRows * entry.NumCols
          if st.support entry.Identifier < support_pixels then
            { acc with support_message := acc.support_message ++ [(entry.Identifier, st.support entry.Identifier, support_pixels)] }
          else acc) afterChannels

/-- `CPHDWriter1_0.close`: a no-op when already closed; otherwise run the
completeness check, mark closed, and raise `IOError` when incompletely
written. -/
def writerClose (w : WriterMeta) (st : WState) : Except Err WState :=
  if st.closed then .ok st
  else
    let fully_written := (check_fully_written w st).status
    let st := { st with closed := true }
    if fully_written then .ok st else .error .incompleteWrite

/-- `CPHDWriter1_0.write_file`: write each supplied PVP array at start 0,
each signal array at `(0, 0)` (via `write_chip`), then each support array at
`(0, 0)` when a support block is supplied.  The supplied dictionaries are
modelled as association lists in iteration order. -/
def write_file (w : WriterMeta) (st : WState)
    (pvp_block : List (String × List Int)) (signal_block : List (String × Mat2))
    (support_block : Option (List (String × Mat2))) : Except Err WState := do
  let st ← pvp_block.foldlM (fun st p => write_pvp_block w st (.str p.1) p.2 0) st
  let st ← signal_block.foldlM (fun st p => write_signal w st p.2 (0, 0) (.str p.1)) st
  match support_block with
  | none => pure st
  | some l => l.foldlM (fun st p => write_support_block w st (.str p.1) p.2 (0, 0)) st

/-- Follows the spec's words (§4.9 finalize): every channel needs PVP rows
written ≥ declared vector count and signal pixels written ≥ declared
vector×sample count, and every declared support entry needs pixels written ≥
declared row×col count. -/
def specFullyWritten (w : WriterMeta) (st : WState) : Bool :=
  w.Channels.all (fun e =>
    st.pvp e.Identifier ≥ e.NumVectors &&
    st.signal e.Identifier ≥ e.NumVectors * e.NumSamples) &&
  (w.SupportArrays.getD []).all (fun e =>
    st.support e.Identifier ≥ e.NumRows * e.NumCols)

/-! ### Helper lemmas -/

theorem dictLookupFrom_not_mem (ids : List String) (base : Nat) (key : String)
    (acc : Option Nat) (h : key ∉ ids) : dictLookupFrom ids base key acc = acc := by
  induction ids generalizing base acc with
  | nil => rfl
  | cons a rest ih =>
      have ha : a ≠ key := fun he => h (he ▸ List.mem_cons_self a rest)
      have hr : key ∉ rest := fun hm => h (List.mem_cons_of_mem a hm)
      simp only [dictLookupFrom, if_neg ha]
      exact ih (base + 1) acc hr

theorem dictLookupFrom_nodup_get (ids : List String) (base : Nat) (key : String)
    (acc : Option Nat) (hnd : ids.Nodup) (j : Nat) (hj : j < ids.length)
    (hkey : ids.get ⟨j, hj⟩ = key) :
    dictLookupFrom ids base key acc = some (base + j) := by
  induction ids generalizing base acc j with
  | nil => exact absurd hj (by simp)
  | cons a rest ih =>
      have hmem : a ∉ rest := (List.nodup_cons.mp hnd).1
      have hndr : rest.Nodup := (List.nodup_cons.mp hnd).2
      cases j with
      | zero =>
          have ha : a = key := hkey
          have hkr : key ∉ rest := ha ▸ hmem
          simp only [dictLookupFrom, if_pos ha]
          rw [dictLookupFrom_not_mem rest (base + 1) key (some base) hkr]
          rfl
      | succ j' =>
          have hj' : j' < rest.length := Nat.lt_of_succ_lt_succ hj
          have hkr : rest.get ⟨j', hj'⟩ = key := hkey
          have hkmem : key ∈ rest := hkr ▸ List.get_mem rest j' hj'
          have ha : a ≠ key := fun he => hmem (he ▸ hkmem)
          simp only [dictLookupFrom, if_neg ha]
          rw [ih (base + 1) acc hndr j' hj' hkr]
          congr 1
          omega

theorem channelMapLookup_nodup_get (ids : List String) (hnd : ids.Nodup)
    (j : Nat) (hj : j < ids.length) :
    channelMapLookup ids (ids.get ⟨j, hj⟩) = some j := by
  unfold channelMapLookup
  rw [dictLookupFrom_nodup_get ids 0 _ none hnd j hj rfl, Nat.zero_add]

theorem find?_nodup_get {α : Type} (l : List α) (f : α → String)
    (hnd : (l.map f).Nodup) (j : Nat) (hj : j < l.length) :
    l.find? (fun e => f e = f (l.get ⟨j, hj⟩)) = some (l.get ⟨j, hj⟩) := by
  induction l generalizing j with
  | nil => exact absurd hj (by simp)
  | cons a rest ih =>
      have hmem : f a ∉ rest.map f := (List.nodup_cons.mp hnd).1
      have hndr : (rest.map f).Nodup := (List.nodup_cons.mp hnd).2
      cases j with
      | zero => simp [List.find?]
      | succ j' =>
          have hj' : j' < rest.length := Nat.lt_of_succ_lt_succ hj
          have hgm : f (rest.get ⟨j', hj'⟩) ∈ rest.map f :=
            List.mem_map_of_mem f (List.get_mem rest j' hj')
          have ha : ¬ (f a = f (rest.get ⟨j', hj'⟩)) := fun he => hmem (he ▸ hgm)
          have hstep : (a :: rest).get ⟨j' + 1, hj⟩ = rest.get ⟨j', hj'⟩ := rfl
          rw [hstep]
          rw [List.find?_cons_of_neg _ (by simpa using ha)]
          exact ih hndr j' hj'

/-! ### C8: support access on version 0.3 -/

/-- C8: on a version-0.3 reader, `read_support_array` and
`read_support_block` fail with the unsupported-operation error
(`TypeError` in the source, the spec's `UnsupportedOperationError`) for
every input. -/
theorem claimC8 :
    ∀ (r : Reader0_3) (index : PyIndex) (d1 d2 : RangeSpec),
      r.read_support_array index d1 d2 = .error .unsupportedOperation ∧
      r.read_support_block = .error .unsupportedOperation :=
  fun _ _ _ _ => ⟨rfl, rfl⟩

/-! ### C3: identifier/ordinal equivalence -/

theorem Reader1_0.validate_index_str (r : Reader1_0)
    (hch : (r.Channels.map ChannelEntry.Identifier).Nodup)
    (i : Nat) (hi : i < r.Channels.length) :
    r.validate_index (.str (r.Channels.get ⟨i, hi⟩).Identifier) = .ok i := by
  have hlen : i < (r.Channels.map ChannelEntry.Identifier).length := by simpa using hi
  have hget : (r.Channels.map ChannelEntry.Identifier).get ⟨i, hlen⟩ =
      (r.Channels.get ⟨i, hi⟩).Identifier := by
    simp
  simp only [Reader1_0.validate_index]
  rw [← hget, channelMapLookup_nodup_get _ hch i hlen]

theorem Reader1_0.validate_index_num (r : Reader1_0)
    (i : Nat) (hi : i < r.Channels.length) :
    r.validate_index (.num i) = .ok i := by
  simp only [Reader1_0.validate_index]
  rw [if_pos ⟨by omega, by exact_mod_cast hi⟩]
  simp

/-- C3 (amended): on a version-1.0 reader whose channel (and support)
identifiers are pairwise distinct — the data-model invariant — every read
operation taking a channel/support reference returns identical data for the
entry's string identifier and for its ordinal position.  (The version-0.3
reader accepts only integer ordinals; see the counterexample.) -/
theorem claimC3 (r : Reader1_0)
    (hch : (r.Channels.map ChannelEntry.Identifier).Nodup)
    (hsa : ∀ l, r.SupportArrays = some l → (l.map SupportEntry.Identifier).Nodup) :
    (∀ (i : Nat) (hi : i < r.Channels.length) (rng : RangeSpec),
       r.read_pvp_array (.str (r.Channels.get ⟨i, hi⟩).Identifier) rng =
         r.read_pvp_array (.num i) rng) ∧
    (∀ (vbl : String) (i : Nat) (hi : i < r.Channels.length) (rng : RangeSpec),
       r.read_pvp_variable vbl (.str (r.Channels.get ⟨i, hi⟩).Identifier) rng =
         r.read_pvp_variable vbl (.num i) rng) ∧
    (∀ (d1 d2 : Int × Int × Int) (i : Nat) (hi : i < r.Channels.length),
       r.read_chip d1 d2 (.str (r.Channels.get ⟨i, hi⟩).Identifier) =
         r.read_chip d1 d2 (.num i)) ∧
    (∀ (l : List SupportEntry), r.SupportArrays = some l →
       ∀ (j : Nat) (hj : j < l.length) (d1 d2 : RangeSpec),
         r.read_support_array (.str (l.get ⟨j, hj⟩).Identifier) d1 d2 =
           r.read_support_array (.num j) d1 d2) := by
  have hv : ∀ (i : Nat), i < r.Channels.length →
      r.validate_index (.str (r.Channels.getD i default).Identifier) =
        r.validate_index (.num i) := by
    intro i hi
    rw [List.getD_eq_getElem r.Channels default hi]
    rw [show r.Channels[i] = r.Channels.get ⟨i, hi⟩ from rfl]
    rw [r.validate_index_str hch i hi, r.validate_index_num i hi]
  refine ⟨?_, ?_, ?_, ?_⟩
  · intro i hi rng
    unfold Reader1_0.read_pvp_array
    rw [show (r.Channels.get ⟨i, hi⟩).Identifier = (r.Channels.getD i default).Identifier by
      rw [List.getD_eq_getElem r.Channels default hi]; rfl]
    rw [hv i hi]
  · intro vbl i hi rng
    unfold Reader1_0.read_pvp_variable
    rw [show (r.Channels.get ⟨i, hi⟩).Identifier = (r.Channels.getD i default).Identifier by
      rw [List.getD_eq_getElem r.Channels default hi]; rfl]
    rw [hv i hi]
  · intro d1 d2 i hi
    unfold Reader1_0.read_chip
    rw [show (r.Channels.get ⟨i, hi⟩).Identifier = (r.Channels.getD i default).Identifier by
      rw [List.getD_eq_getElem r.Channels default hi]; rfl]
    rw [hv i hi]
  · intro l hl j hj d1 d2
    have hfind : l.find? (fun e => e.Identifier = (l.get ⟨j, hj⟩).Identifier) =
        some (l.get ⟨j, hj⟩) := find?_nodup_get l SupportEntry.Identifier (hsa l hl) j hj
    have hpy : pyListGet l (j : Int) = .ok (l.get ⟨j, hj⟩) := by
      unfold pyListGet
      rw [if_pos (by constructor <;> [omega; exact_mod_cast hj])]
      rw [Int.toNat_natCast, List.getD_eq_getElem l default hj]
      rfl
    unfold Reader1_0.read_support_array
    rw [hl]
    simp only [bind, Except.bind, hfind, hpy]

/-- A concrete version-0.3 reader used to refute the cross-version half of
the identifier/ordinal claim. -/
def r03cex : Reader0_3 :=
  { ArraySize := [⟨1, 1⟩]
    pvpFields := ["TxTime"]
    pvpField := fun _ _ => [0]
    pvpRows := fun _ => [7]
    chip := fun _ _ _ => .two [[1]] }

/-- C3 counterexample: the claim fails for the version-0.3 reader — reading
by a string identifier raises (its `_validate_index` is `int_func` plus a
bounds check, so the non-numeric identifier string fails with `ValueError`)
while the ordinal read returns data. -/
theorem claimC3_counterexample :
    r03cex.read_pvp_array (.str "CH0") .all = .error .valueErr ∧
    r03cex.read_pvp_array (.num 0) .all = .ok [7] := by
  constructor <;> decide

/-- A concrete version-1.0 reader exercising the claim-C3 equivalence. -/
def r10w : Reader1_0 :=
  { Channels := [⟨"CH0", 2, 2, 0, 0⟩, ⟨"CH1", 3, 2, 16, 32⟩]
    SupportArrays := some [⟨"SA0", 2, 2, 4, 0⟩]
    pvpFields := ["TxTime", "AmpSF"]
    pvpField := fun _ _ => [1, 2, 3]
    pvpRows := fun id => if id = "CH0" then [10, 20] else [30, 40, 50]
    chip := fun i _ _ => .two [[Int.ofNat i]]
    SUPPORT_BLOCK_BYTE_OFFSET := 100
    supportFile := fun n => Int.ofNat n }

theorem claimC3_witness :
    r10w.read_pvp_array (.str "CH0") .all = r10w.read_pvp_array (.num 0) .all ∧
    r10w.read_support_array (.str "SA0") .all .all =
      r10w.read_support_array (.num 0) .all .all := by
  have hch : (r10w.Channels.map ChannelEntry.Identifier).Nodup := by decide
  have hsa : ∀ l, r10w.SupportArrays = some l →
      (l.map SupportEntry.Identifier).Nodup := by
    intro l hl
    cases hl
    decide
  have h := claimC3 r10w hch hsa
  exact ⟨h.1 0 (by decide) .all,
    h.2.2.2 [⟨"SA0", 2, 2, 4, 0⟩] rfl 0 (by decide) .all .all⟩

/-! ### C6: reverse-from-end support access -/

theorem pyListGet_natCast {α : Type} [Inhabited α] (l : List α) (j : Nat)
    (hj : j < l.length) : pyListGet l (j : Int) = .ok (l.get ⟨j, hj⟩) := by
  unfold pyListGet
  rw [if_pos ⟨by omega, by exact_mod_cast hj⟩]
  rw [Int.toNat_natCast, List.getD_eq_getElem l default hj]
  rfl

theorem validate_range_rev (n : Nat) (e k : Int) (hk : k < 0) :
    validate_range (.r3 (-1) e k) n = .ok (-1, e, k) := by
  have h0 : k ≠ 0 := by omega
  simp [validate_range, h0, hk]

theorem validate_range_fwd (n : Nat) (s e k : Int) (hk : k ≠ 0)
    (hs : 0 ≤ s) (hsb : s ≤ n) (he : 0 ≤ e) (heb : e ≤ n) :
    validate_range (.r3 s e k) n = .ok (s, e, k) := by
  have h1 : ¬(s = -1 ∧ k < 0) := by rintro ⟨h, _⟩; omega
  simp [validate_range, hk, h1, hs, hsb, he, heb]

theorem gather_length (m : Nat → Nat → Int) (rows cols : List Int) :
    (gather m rows cols).length = rows.length := by
  unfold gather
  exact List.length_map rows _

theorem gather_getD (m : Nat → Nat → Int) (rows cols : List Int) (t : Nat)
    (ht : t < rows.length) :
    (gather m rows cols).getD t [] =
      cols.map (fun c => m ((rows.getD t 0).toNat) c.toNat) := by
  unfold gather
  rw [List.getD_eq_getElem _ _ (by simpa using ht), List.getElem_map,
    List.getD_eq_getElem rows 0 ht]

theorem revSlice_length (n : Nat) (k : Int) (hk : k < 0) (hn : 0 < n) :
    (pySliceIndices n (some (-1)) none k).length = (n - 1) / (-k).toNat + 1 := by
  have hk0 : k ≠ 0 := by omega
  rw [pySliceIndices_length n _ _ k hk0]
  have hstart : pyAdjustStart n k (some (-1)) = (n : Int) - 1 := by
    have ha : (-1 : Int) < 0 := by omega
    have hb : ¬((-1 : Int) + (n : Int) < 0) := by omega
    simp only [pyAdjustStart, if_pos ha, if_neg hb]
    omega
  have hstop : pyAdjustStop n k none = -1 := by
    simp only [pyAdjustStop, if_pos hk]
  rw [hstart, hstop]
  unfold pySliceLen
  rw [if_pos hk, if_pos (by omega : (-1 : Int) < (n : Int) - 1)]
  generalize hgen : (-k).toNat = m
  have hm : (-k) = ((m : Nat) : Int) := by omega
  have hn1 : ((n : Int) - 1 - (-1) - 1) = (((n - 1 : Nat) : Nat) : Int) := by omega
  rw [hn1, hm, ← Int.ofNat_ediv]
  rw [show ((((n - 1) / m : Nat) : Int) + 1) = (((n - 1) / m + 1 : Nat) : Int) by push_cast; ring]
  rw [Int.toNat_natCast]

theorem revSlice_getD (n : Nat) (k : Int) (hk : k < 0) (hn : 0 < n) (t : Nat)
    (ht : t < (pySliceIndices n (some (-1)) none k).length) :
    (pySliceIndices n (some (-1)) none k).getD t 0 = (n : Int) - 1 + k * t := by
  have hk0 : k ≠ 0 := by omega
  rw [pySliceIndices_get n _ _ k hk0 t ht]
  have hstart : pyAdjustStart n k (some (-1)) = (n : Int) - 1 := by
    have ha : (-1 : Int) < 0 := by omega
    have hb : ¬((-1 : Int) + (n : Int) < 0) := by omega
    simp only [pyAdjustStart, if_pos ha, if_neg hb]
    omega
  rw [hstart]

theorem revSrc_toNat (n : Nat) (k : Int) (hk : k < 0) (hn : 0 < n) (t : Nat)
    (ht : t < (n - 1) / (-k).toNat + 1) :
    ((n : Int) - 1 + k * t).toNat = n - 1 - t * (-k).toNat := by
  set m := (-k).toNat with hmdef
  have hm : 0 < m := by omega
  have htle : t ≤ (n - 1) / m := by omega
  have hmul : t * m ≤ n - 1 := Nat.le_div_iff_mul_le hm |>.mp htle
  have hkm : k = -(m : Int) := by omega
  rw [hkm]
  have : -(m : Int) * t = -((t * m : Nat) : Int) := by push_cast; ring
  rw [this]
  omega

/-- C6: support-array random access honors the reverse-from-end convention
independently on each axis.  For resolved ranges with `start == -1` and
negative stride on the row axis, the column axis, or both, the read selects
that axis through the unbounded reversed slice `[-1::stride]`, whose index
sequence starts at the last element (`size - 1` at position 0) and is
strictly descending with step `|stride|`; an axis without the convention is
sliced by its ordinary `(start, stop, stride)` bounds. -/
theorem claimC6 (r : Reader1_0) (l : List SupportEntry) (hl : r.SupportArrays = some l)
    (j : Nat) (hj : j < l.length)
    (st1 k1 st2 k2 s1 e1 f1 s2 e2 f2 : Int)
    (hk1 : k1 < 0) (hk2 : k2 < 0)
    (hf1 : f1 ≠ 0) (hs1 : 0 ≤ s1) (hs1b : s1 ≤ ((l.get ⟨j, hj⟩).NumRows : Int))
    (he1 : 0 ≤ e1) (he1b : e1 ≤ ((l.get ⟨j, hj⟩).NumRows : Int))
    (hf2 : f2 ≠ 0) (hs2 : 0 ≤ s2) (hs2b : s2 ≤ ((l.get ⟨j, hj⟩).NumCols : Int))
    (he2 : 0 ≤ e2) (he2b : e2 ≤ ((l.get ⟨j, hj⟩).NumCols : Int)) :
    (r.read_support_array (.num j) (.r3 (-1) st1 k1) (.r3 s2 e2 f2) =
        .ok (gather (supportCell r (l.get ⟨j, hj⟩))
          (pySliceIndices (l.get ⟨j, hj⟩).NumRows (some (-1)) none k1)
          (pySliceIndices (l.get ⟨j, hj⟩).NumCols (some s2) (some e2) f2))) ∧
    (r.read_support_array (.num j) (.r3 s1 e1 f1) (.r3 (-1) st2 k2) =
        .ok (gather (supportCell r (l.get ⟨j, hj⟩))
          (pySliceIndices (l.get ⟨j, hj⟩).NumRows (some s1) (some e1) f1)
          (pySliceIndices (l.get ⟨j, hj⟩).NumCols (some (-1)) none k2))) ∧
    (r.read_support_array (.num j) (.r3 (-1) st1 k1) (.r3 (-1) st2 k2) =
        .ok (gather (supportCell r (l.get ⟨j, hj⟩))
          (pySliceIndices (l.get ⟨j, hj⟩).NumRows (some (-1)) none k1)
          (pySliceIndices (l.get ⟨j, hj⟩).NumCols (some (-1)) none k2))) ∧
    (r.read_support_array (.num j) (.r3 s1 e1 f1) (.r3 s2 e2 f2) =
        .ok (gather (supportCell r (l.get ⟨j, hj⟩))
          (pySliceIndices (l.get ⟨j, hj⟩).NumRows (some s1) (some e1) f1)
          (pySliceIndices (l.get ⟨j, hj⟩).NumCols (some s2) (some e2) f2))) ∧
    (∀ (n : Nat) (k : Int), k < 0 → 0 < n →
      (pySliceIndices n (some (-1)) none k).length = (n - 1) / (-k).toNat + 1 ∧
      (∀ t, t < (n - 1) / (-k).toNat + 1 →
        ((pySliceIndices n (some (-1)) none k).getD t 0).toNat = n - 1 - t * (-k).toNat) ∧
      (∀ t, t + 1 < (n - 1) / (-k).toNat + 1 →
        n - 1 - (t + 1) * (-k).toNat < n - 1 - t * (-k).toNat)) := by
  have hpy : pyListGet l (j : Int) = .ok (l.get ⟨j, hj⟩) := pyListGet_natCast l j hj
  have hrev1 : validate_range (.r3 (-1) st1 k1) (l.get ⟨j, hj⟩).NumRows =
      .ok (-1, st1, k1) := validate_range_rev _ st1 k1 hk1
  have hrev2 : validate_range (.r3 (-1) st2 k2) (l.get ⟨j, hj⟩).NumCols =
      .ok (-1, st2, k2) := validate_range_rev _ st2 k2 hk2
  have hfwd1 : validate_range (.r3 s1 e1 f1) (l.get ⟨j, hj⟩).NumRows =
      .ok (s1, e1, f1) := validate_range_fwd _ s1 e1 f1 hf1 hs1 hs1b he1 he1b
  have hfwd2 : validate_range (.r3 s2 e2 f2) (l.get ⟨j, hj⟩).NumCols =
      .ok (s2, e2, f2) := validate_range_fwd _ s2 e2 f2 hf2 hs2 hs2b he2 he2b
  have hns1 : ¬(s1 = -1) := by omega
  have hns2 : ¬(s2 = -1) := by omega
  refine ⟨?_, ?_, ?_, ?_, ?_⟩
  · unfold Reader1_0.read_support_array
    rw [hl]
    simp only [bind, Except.bind, hpy, hrev1, hfwd2]
    simp [hk1, hns2]
  · unfold Reader1_0.read_support_array
    rw [hl]
    simp only [bind, Except.bind, hpy, hfwd1, hrev2]
    simp [hk2, hns1]
  · unfold Reader1_0.read_support_array
    rw [hl]
    simp only [bind, Except.bind, hpy, hrev1, hrev2]
    simp [hk1, hk2]
  · unfold Reader1_0.read_support_array
    rw [hl]
    simp only [bind, Except.bind, hpy, hfwd1, hfwd2]
    simp [hns1, hns2]
  · intro n k hk hn
    refine ⟨revSlice_length n k hk hn, ?_, ?_⟩
    · intro t ht
      rw [revSlice_getD n k hk hn t (by rw [revSlice_length n k hk hn]; exact ht)]
      exact revSrc_toNat n k hk hn t ht
    · intro t ht
      have hm : 0 < (-k).toNat := by omega
      have hle : t + 1 ≤ (n - 1) / (-k).toNat := by omega
      have hmul : (t + 1) * (-k).toNat ≤ n - 1 := (Nat.le_div_iff_mul_le hm).mp hle
      have hsucc : (t + 1) * (-k).toNat = t * (-k).toNat + (-k).toNat := by ring
      omega

theorem claimC6_witness :
    r10w.read_support_array (.num 0) (.r3 (-1) 0 (-1)) (.r3 0 2 1) =
      .ok (gather (supportCell r10w ⟨"SA0", 2, 2, 4, 0⟩)
        (pySliceIndices 2 (some (-1)) none (-1))
        (pySliceIndices 2 (some 0) (some 2) 1)) ∧
    r10w.read_support_array (.num 0) (.r3 (-1) 0 (-1)) (.r3 0 2 1) =
      .ok [[108, 112], [100, 104]] := by
  have h := claimC6 r10w [⟨"SA0", 2, 2, 4, 0⟩] rfl 0 (by decide)
      0 (-1) 0 (-1) 0 2 1 0 2 1 (by decide) (by decide) (by decide) (by decide)
      (by decide) (by decide) (by decide) (by decide) (by decide) (by decide)
      (by decide) (by decide)
  exact ⟨h.1, by decide⟩

/-! ### C5: version dispatch -/

theorem listStartsWith_append (pre post : List Char) :
    listStartsWith pre (pre ++ post) = true := by
  induction pre with
  | nil => rfl
  | cons a t ih => simp [listStartsWith, ih]

theorem splitChar_ne_nil (sep : Char) (l : List Char) : splitChar sep l ≠ [] := by
  cases l with
  | nil => simp [splitChar]
  | cons c rest =>
      unfold splitChar
      cases h : splitChar sep rest with
      | nil => simp
      | cons h t =>
          by_cases hc : c = sep <;> simp [hc]

theorem splitChar_not_mem (sep : Char) (l : List Char) (h : sep ∉ l) :
    splitChar sep l = [l] := by
  induction l with
  | nil => rfl
  | cons c rest ih =>
      have hc : c ≠ sep := fun he => h (he ▸ List.mem_cons_self c rest)
      have hr : sep ∉ rest := fun hm => h (List.mem_cons_of_mem c hm)
      unfold splitChar
      rw [ih hr]
      simp [hc]

theorem splitChar_cons (sep c : Char) (rest : List Char) :
    splitChar sep (c :: rest) =
      match splitChar sep rest with
      | [] => [[]]
      | h :: t => if c = sep then [] :: h :: t else (c :: h) :: t := rfl

theorem splitChar_append (sep : Char) (pre suf : List Char) (h : sep ∉ pre) :
    splitChar sep (pre ++ sep :: suf) = pre :: splitChar sep suf := by
  induction pre with
  | nil =>
      rw [List.nil_append, splitChar_cons]
      cases hs : splitChar sep suf with
      | nil => exact absurd hs (splitChar_ne_nil sep suf)
      | cons a t => simp
  | cons c rest ih =>
      have hc : c ≠ sep := fun he => h (he ▸ List.mem_cons_self c rest)
      have hr : sep ∉ rest := fun hm => h (List.mem_cons_of_mem c hm)
      rw [List.cons_append, splitChar_cons, ih hr]
      simp [hc]

theorem takeWhile_append_cons (p : Char → Bool) (pre : List Char) (c : Char)
    (suf : List Char) (hpre : ∀ a ∈ pre, p a = true) (hc : p c = false) :
    (pre ++ c :: suf).takeWhile p = pre := by
  induction pre with
  | nil => simp [List.takeWhile_cons, hc]
  | cons a t ih =>
      have ha : p a = true := hpre a (List.mem_cons_self a t)
      simp only [List.cons_append, List.takeWhile_cons, ha]
      rw [ih (fun b hb => hpre b (List.mem_cons_of_mem a hb))]
      simp

theorem dropWhile_all_false (p : Char → Bool) (l : List Char)
    (h : ∀ c ∈ l, p c = false) : l.dropWhile p = l := by
  cases l with
  | nil => rfl
  | cons a t => simp [List.dropWhile_cons, h a (List.mem_cons_self a t)]

theorem stripChars_eq_self (l : List Char) (h : ∀ c ∈ l, isSpaceChar c = false) :
    stripChars l = l := by
  unfold stripChars
  rw [dropWhile_all_false _ l h]
  rw [dropWhile_all_false _ l.reverse (fun c hc => h c (List.mem_reverse.mp hc))]
  exact List.reverse_reverse l

theorem nonspace_ne_newline (v : List Char) (hsp : ∀ c ∈ v, isSpaceChar c = false) :
    ∀ c ∈ v, (decide (c ≠ '\x0a')) = true := by
  intro c hc
  have := hsp c hc
  simp only [decide_eq_true_eq]
  intro he
  subst he
  simp [isSpaceChar] at this

theorem extract_version_of_content (v rest : List Char)
    (hsp : ∀ c ∈ v, isSpaceChar c = false) (hslash : '/' ∉ v) :
    extractVersionC (headLineC ("CPHD".toList ++ '/' :: (v ++ '\x0a' :: rest))) =
      .ok v := by
  have hassoc : "CPHD".toList ++ '/' :: (v ++ '\x0a' :: rest) =
      ("CPHD".toList ++ '/' :: v) ++ '\x0a' :: rest := by
    simp
  have hpre : ∀ a ∈ ("CPHD".toList ++ '/' :: v), (decide (a ≠ '\x0a')) = true := by
    intro a ha
    rcases List.mem_append.mp ha with hin | hin
    · fin_cases hin <;> decide
    · rcases List.mem_cons.mp hin with he | hin
      · subst he; decide
      · exact nonspace_ne_newline v hsp a hin
  have htake : (("CPHD".toList ++ '/' :: v) ++ '\x0a' :: rest).takeWhile
      (fun c => decide (c ≠ '\x0a')) = "CPHD".toList ++ '/' :: v :=
    takeWhile_append_cons _ _ _ _ hpre (by decide)
  have hnosp : ∀ c ∈ ("CPHD".toList ++ '/' :: v), isSpaceChar c = false := by
    intro a ha
    rcases List.mem_append.mp ha with hin | hin
    · fin_cases hin <;> decide
    · rcases List.mem_cons.mp hin with he | hin
      · subst he; decide
      · exact hsp a hin
  have hnocphd : '/' ∉ "CPHD".toList := by decide
  unfold headLineC
  rw [hassoc, htake, stripChars_eq_self _ hnosp]
  unfold extractVersionC
  rw [splitChar_append '/' ("CPHD".toList) v hnocphd, splitChar_not_mem '/' v hslash]
  simp [stripChars_eq_self v hsp]

/-- C5: reader construction dispatches on the version parsed from the first
line `CPHD/<version>` by prefix match — `0.3…` gives the 0.3 variant,
`1.0…` (e.g. `1.0.1`) gives the 1.0 variant, any other version fails with
the format error (`ValueError`), and a head line that does not split into
exactly two `/`-separated parts also fails with the format error. -/
theorem claimC5 (v rest : List Char) (hsp : ∀ c ∈ v, isSpaceChar c = false)
    (hslash : '/' ∉ v) :
    (listStartsWith ("0.3".toList) v = true →
      (cphdDetailsInit ⟨true, true, "CPHD".toList ++ '/' :: (v ++ '\x0a' :: rest),
          .ok (), .ok ()⟩).bind cphdReaderNew = .ok .v0_3) ∧
    (listStartsWith ("1.0".toList) v = true →
      (cphdDetailsInit ⟨true, true, "CPHD".toList ++ '/' :: (v ++ '\x0a' :: rest),
          .ok (), .ok ()⟩).bind cphdReaderNew = .ok .v1_0) ∧
    (listStartsWith ("0.3".toList) v = false → listStartsWith ("1.0".toList) v = false →
      (cphdDetailsInit ⟨true, true, "CPHD".toList ++ '/' :: (v ++ '\x0a' :: rest),
          .ok (), .ok ()⟩).bind cphdReaderNew = .error .format) ∧
    (∀ hl : List Char, '/' ∉ hl → extractVersionC hl = .error .format) := by
  have hver := extract_version_of_content v rest hsp hslash
  have hsig : listStartsWith ("CPHD".toList)
      (("CPHD".toList ++ '/' :: (v ++ '\x0a' :: rest)).take 10) = true := by
    rw [List.take_append_eq_append_take]
    rw [List.take_of_length_le (by decide : ("CPHD".toList).length ≤ 10)]
    exact listStartsWith_append _ _
  have hpipe : (cphdDetailsInit ⟨true, true,
      "CPHD".toList ++ '/' :: (v ++ '\x0a' :: rest), .ok (), .ok ()⟩).bind cphdReaderNew =
      (if listStartsWith ("0.3".toList) v then .ok .v0_3
       else if listStartsWith ("1.0".toList) v then .ok .v1_0
       else .error .format) := by
    simp at hsig hver
    unfold cphdDetailsInit cphdReaderNew
    cases h03 : listStartsWith ("0.3".toList) v <;>
      cases h10 : listStartsWith ("1.0".toList) v <;>
        simp_all [bind, Except.bind, Functor.map, Except.map, pure, Except.pure]
  refine ⟨?_, ?_, ?_, ?_⟩
  · intro h03
    rw [hpipe, if_pos h03]
  · intro h10
    rw [hpipe]
    have h03 : ¬ (listStartsWith ("0.3".toList) v = true) := by
      intro hb
      cases v with
      | nil => exact absurd hb (by decide)
      | cons c t =>
          simp [listStartsWith] at hb h10
          exact absurd (hb.1.trans h10.1.symm) (by decide)
    rw [if_neg h03, if_pos h10]
  · intro h03 h10
    rw [hpipe]
    simp at h03 h10
    simp [h03, h10]
  · intro hl hnos
    unfold extractVersionC
    rw [splitChar_not_mem '/' hl hnos]
    simp

theorem claimC5_witness :
    (cphdDetailsInit ⟨true, true,
        "CPHD".toList ++ '/' :: ("1.0.1".toList ++ '\x0a' :: "rest".toList),
        .ok (), .ok ()⟩).bind cphdReaderNew = .ok .v1_0 ∧
    extractVersionC ("CPHDxyz".toList) = .error .format := by
  have h := claimC5 ("1.0.1".toList) ("rest".toList) (by decide) (by decide)
  exact ⟨h.2.1 (by decide), h.2.2.2 ("CPHDxyz".toList) (by decide)⟩

/-! ### C9: open-detect behaviour -/

theorem cphdDetailsInit_version (f : FileModel) (d : DetailsModel)
    (h : cphdDetailsInit f = .ok d) :
    listStartsWith ("0.3".toList) d.cphd_version = true ∨
      listStartsWith ("1.0".toList) d.cphd_version = true := by
  unfold cphdDetailsInit at h
  simp only [bind, Except.bind, pure, Except.pure] at h
  repeat' split at h
  all_goals first
    | (injection h with h; subst h; simp_all)
    | simp_all

/-- C9: the open-detect entry point `is_a` never raises on non-container
input — a missing path, a non-file, or leading bytes that are not the CPHD
signature all produce `None` (the `IOError` those raise is caught); on a
file whose construction succeeds it returns a reader, and any non-`IOError`
parse-time error (malformed version line, unhandled version) is re-raised
unmodified rather than converted to `None`. -/
theorem claimC9 (f : FileModel) :
    (f.pathExists = false ∨ f.isFile = false ∨
        listStartsWith ("CPHD".toList) (f.content.take 10) = false →
      isA f = .ok none) ∧
    (∀ e, cphdDetailsInit f = .error e → e.isIOError = false → isA f = .error e) ∧
    (∀ d, cphdDetailsInit f = .ok d → ∃ rv, isA f = .ok (some rv)) := by
  refine ⟨?_, ?_, ?_⟩
  · intro h
    have hinit : cphdDetailsInit f = .error .notAContainer := by
      unfold cphdDetailsInit
      by_cases hpf : (f.pathExists && f.isFile) = true
      · have hsig : listStartsWith ("CPHD".toList) (f.content.take 10) = false := by
          rcases h with h | h | h
          · rw [h] at hpf; simp at hpf
          · rw [h] at hpf; simp at hpf
          · exact h
        simp at hsig
        simp [hpf, hsig, bind, Except.bind, pure, Except.pure]
      · simp [hpf, bind, Except.bind, pure, Except.pure]
    unfold isA
    simp [hinit, bind, Except.bind, Err.isIOError]
  · intro e he hio
    unfold isA
    simp [he, bind, Except.bind, hio]
  · intro d hd
    by_cases h03 : listStartsWith ("0.3".toList) d.cphd_version = true
    · refine ⟨.v0_3, ?_⟩
      unfold isA cphdReaderNew
      simp at h03
      simp [hd, bind, Except.bind, h03]
    · rcases cphdDetailsInit_version f d hd with h | h10
      · exact absurd h h03
      · refine ⟨.v1_0, ?_⟩
        unfold isA cphdReaderNew
        simp at h03 h10
        simp [hd, bind, Except.bind, h03, h10]

theorem claimC9_witness :
    isA ⟨false, true, [], .ok (), .ok ()⟩ = .ok none ∧
    isA ⟨true, true, "CPHDx".toList ++ ['\x0a'], .ok (), .ok ()⟩ = .error .format := by
  constructor
  · exact (claimC9 _).1 (Or.inl rfl)
  · exact (claimC9 _).2.1 .format (by decide) (by decide)

/-! ### C4: amplitude-scale application -/

theorem headD_eq_getD {α : Type} [Inhabited α] (l : List α) (d : α) :
    l.headD d = l.getD 0 d := by
  cases l <;> rfl

/-- The 1-D payload of a signal result. -/
def sigOne : SigArray → List Int
  | .one v => v
  | .two _ => []

/-- The 2-D payload of a signal result. -/
def sigTwo : SigArray → List (List Int)
  | .one _ => []
  | .two m => m

theorem getD_map_int (f : Int → Int) (l : List Int) (t : Nat) (ht : t < l.length) :
    (l.map f).getD t 0 = f (l.getD t 0) := by
  rw [List.getD_eq_getElem _ _ (by simpa using ht), List.getElem_map,
    List.getD_eq_getElem _ _ ht]

theorem getD_map_row (f : List Int → List Int) (m : List (List Int)) (t : Nat)
    (ht : t < m.length) : (m.map f).getD t [] = f (m.getD t []) := by
  rw [List.getD_eq_getElem _ _ (by simpa using ht), List.getElem_map,
    List.getD_eq_getElem _ _ ht]

theorem getD_zipWith_int (f : Int → Int → Int) (a b : List Int) (t : Nat)
    (ha : t < a.length) (hb : t < b.length) :
    (List.zipWith f a b).getD t 0 = f (a.getD t 0) (b.getD t 0) := by
  rw [List.getD_eq_getElem _ _ (by rw [List.length_zipWith]; omega), List.getElem_zipWith,
    List.getD_eq_getElem _ _ ha, List.getD_eq_getElem _ _ hb]

theorem getD_zipWith_row (f : Int → List Int → List Int) (a : List Int)
    (m : List (List Int)) (t : Nat) (ha : t < a.length) (hm : t < m.length) :
    (List.zipWith f a m).getD t [] = f (a.getD t 0) (m.getD t []) := by
  rw [List.getD_eq_getElem _ _ (by rw [List.length_zipWith]; omega), List.getElem_zipWith,
    List.getD_eq_getElem _ _ ha, List.getD_eq_getElem _ _ hm]

/-- C4: for a signal read over a resolved row range, an absent `AmpSF` PVP
field leaves the raw complex array unchanged; a present one is read over the
same row range and applied as: a single-element scale multiplies every cell
by that scalar, a 1-D result is multiplied elementwise, and a 2-D result has
the scale broadcast over the row axis (one scale per row, across all
columns).  Sample values are modelled exactly; the `float32` narrowing cast
is the identity on them. -/
theorem claimC4 (r : Reader1_0) (i : Nat) (hi : i < r.Channels.length)
    (s1 e1 k1 : Int) (hk1 : k1 ≠ 0) (hs1 : 0 ≤ s1)
    (hs1b : s1 ≤ ((r.Channels.get ⟨i, hi⟩).NumVectors : Int))
    (he1 : 0 ≤ e1) (he1b : e1 ≤ ((r.Channels.get ⟨i, hi⟩).NumVectors : Int))
    (range2 : Int × Int × Int) :
    ("AmpSF" ∉ r.pvpFields →
      r.fetch (s1, e1, k1) range2 i = .ok (r.chip i (s1, e1, k1) range2)) ∧
    ("AmpSF" ∈ r.pvpFields →
      r.fetch (s1, e1, k1) range2 i =
        .ok (scaleSig
          (pySlice (r.pvpField (r.Channels.get ⟨i, hi⟩).Identifier "AmpSF")
            (some s1) (some e1) k1)
          (r.chip i (s1, e1, k1) range2))) ∧
    (∀ (sc : List Int) (m : List (List Int)), sc.length = 1 →
      ∀ t u, t < m.length → u < (m.getD t []).length →
        ((sigTwo (scaleSig sc (.two m))).getD t []).getD u 0 =
          sc.getD 0 0 * ((m.getD t []).getD u 0)) ∧
    (∀ (sc v : List Int), sc.length = v.length →
      ∀ t, t < v.length →
        (sigOne (scaleSig sc (.one v))).getD t 0 = sc.getD t 0 * v.getD t 0) ∧
    (∀ (sc : List Int) (m : List (List Int)), sc.length = m.length →
      ∀ t u, t < m.length → u < (m.getD t []).length →
        ((sigTwo (scaleSig sc (.two m))).getD t []).getD u 0 =
          sc.getD t 0 * ((m.getD t []).getD u 0)) := by
  have hvi : r.validate_index (.num i) = .ok i := r.validate_index_num i hi
  have hgd : r.Channels.getD i default = r.Channels.get ⟨i, hi⟩ :=
    List.getD_eq_getElem r.Channels default hi
  have hvr : validate_range (.r3 s1 e1 k1) (r.Channels.getD i default).NumVectors =
      .ok (s1, e1, k1) := by
    rw [hgd]
    exact validate_range_fwd _ s1 e1 k1 hk1 hs1 hs1b he1 he1b
  have hopt : r.Channels[i]? = some (r.Channels.get ⟨i, hi⟩) := by
    rw [List.getElem?_eq_getElem hi]
    rfl
  simp [hopt] at hvr
  refine ⟨?_, ?_, ?_, ?_, ?_⟩
  · intro habs
    unfold Reader1_0.fetch Reader1_0.read_pvp_variable
    simp [hvi, hvr, hopt, bind, Except.bind, pure, Except.pure, habs]
  · intro hmem
    unfold Reader1_0.fetch Reader1_0.read_pvp_variable
    simp [hvi, hvr, hopt, bind, Except.bind, pure, Except.pure, hmem]
  · intro sc m h1 t u ht hu
    unfold scaleSig sigTwo
    rw [if_pos h1]
    rw [getD_map_row _ m t ht, getD_map_int _ _ u hu, headD_eq_getD]
  · intro sc v hlen t ht
    unfold scaleSig sigOne
    by_cases h1 : sc.length = 1
    · rw [if_pos h1]
      have ht1 : t = 0 := by omega
      subst ht1
      rw [getD_map_int _ v 0 ht, headD_eq_getD]
    · rw [if_neg h1]
      rw [getD_zipWith_int _ sc v t (by omega) ht]
  · intro sc m hlen t u ht hu
    unfold scaleSig sigTwo
    by_cases h1 : sc.length = 1
    · rw [if_pos h1]
      have ht1 : t = 0 := by omega
      subst ht1
      rw [getD_map_row _ m 0 ht, getD_map_int _ _ u hu, headD_eq_getD]
    · rw [if_neg h1]
      rw [getD_zipWith_row _ sc m t (by omega) ht, getD_map_int _ _ u hu]

theorem claimC4_witness :
    r10w.fetch (0, 2, 1) (0, 2, 1) 0 =
      .ok (scaleSig (pySlice (r10w.pvpField "CH0" "AmpSF") (some 0) (some 2) 1)
        (r10w.chip 0 (0, 2, 1) (0, 2, 1))) ∧
    (sigOne (scaleSig [2, 5] (.one [10, 20]))).getD 1 0 = 5 * 20 := by
  have h := claimC4 r10w 0 (by decide) 0 2 1 (by decide) (by decide) (by decide)
    (by decide) (by decide) (0, 2, 1)
  refine ⟨h.2.1 (by decide), ?_⟩
  exact h.2.2.2.1 [2, 5] [10, 20] (by decide) 1 (by decide)

/-! ### C7: per-entity write bounds, effects and counts -/

theorem write_pvp_block_spec (w : WriterMeta) (st : WState) (identifier : PyIndex)
    (data : List Int) (start_index : Int) (i : Nat) (key : String)
    (hvi : w.validate_channel_index identifier = .ok i)
    (hvk : w.validate_channel_key identifier = .ok key) :
    (start_index < 0 → write_pvp_block w st identifier data start_index = .error .indexErr) ∧
    (0 ≤ start_index →
      (start_index + data.length : Int) > (w.Channels.getD i default).NumVectors →
      write_pvp_block w st identifier data start_index = .error .indexErr) ∧
    (0 ≤ start_index →
      (start_index + data.length : Int) ≤ (w.Channels.getD i default).NumVectors →
      ∃ st', write_pvp_block w st identifier data start_index = .ok st' ∧
        st'.pvp key = st.pvp key + data.length ∧
        (∀ id, id ≠ key → st'.pvp id = st.pvp id) ∧
        st'.signal = st.signal ∧ st'.support = st.support ∧ st'.closed = st.closed ∧
        (st'.warnings =
          if st.pvp key + data.length > (w.Channels.getD i default).NumVectors then
            st.warnings + 1
          else st.warnings) ∧
        (∀ q, start_index.toNat ≤ q → q < start_index.toNat + data.length →
          st'.pvpMem key q = data.getD (q - start_index.toNat) 0) ∧
        (∀ id q, ¬(id = key ∧ start_index.toNat ≤ q ∧ q < start_index.toNat + data.length) →
          st'.pvpMem id q = st.pvpMem id q)) := by
  refine ⟨?_, ?_, ?_⟩
  · intro hneg
    unfold write_pvp_block
    simp only [hvi, hvk, bind, Except.bind]
    rw [if_pos hneg]
  · intro hpos hgt
    unfold write_pvp_block
    simp only [hvi, hvk, bind, Except.bind]
    rw [if_neg (by omega : ¬ start_index < 0), if_pos hgt]
    rfl
  · intro hpos hle
    refine ⟨{ st with
      pvpMem := fun id r =>
        if id = key ∧ start_index.toNat ≤ r ∧ r < start_index.toNat + data.length then
          data.getD (r - start_index.toNat) 0
        else st.pvpMem id r
      pvp := fun id => if id = key then st.pvp key + data.length else st.pvp id
      warnings :=
        if st.pvp key + data.length > (w.Channels.getD i default).NumVectors then
          st.warnings + 1
        else st.warnings }, ?_, ?_, ?_, rfl, rfl, rfl, rfl, ?_, ?_⟩
    · unfold write_pvp_block
      simp only [hvi, hvk, bind, Except.bind]
      rw [if_neg (by omega : ¬ start_index < 0),
        if_neg (by omega :
          ¬ (start_index + data.length : Int) > ((w.Channels.getD i default).NumVectors : Int))]
      rfl
    · simp
    · intro id hid
      simp [hid]
    · intro q h1 h2
      simp [h1, h2]
    · intro id q hn
      simp only []
      rw [if_neg hn]

theorem write_signal_spec (w : WriterMeta) (st : WState) (identifier : PyIndex)
    (data : Mat2) (r0 c0 : Int) (i : Nat) (key : String)
    (hvi : w.validate_channel_index identifier = .ok i)
    (hvk : w.validate_channel_key identifier = .ok key)
    (hib : data.itemBytes = w.signalItemSize) :
    (r0 < 0 ∨ c0 < 0 → write_signal w st data (r0, c0) identifier = .error .indexErr) ∧
    (0 ≤ r0 → 0 ≤ c0 →
      ((r0 + data.rows : Int) > (w.Channels.getD i default).NumVectors ∨
        (c0 + data.cols : Int) > (w.Channels.getD i default).NumSamples) →
      write_signal w st data (r0, c0) identifier = .error .indexErr) ∧
    (0 ≤ r0 → 0 ≤ c0 →
      (r0 + data.rows : Int) ≤ (w.Channels.getD i default).NumVectors →
      (c0 + data.cols : Int) ≤ (w.Channels.getD i default).NumSamples →
      ∃ st', write_signal w st data (r0, c0) identifier = .ok st' ∧
        st'.signal key = st.signal key + data.rows * data.cols ∧
        (∀ id, id ≠ key → st'.signal id = st.signal id) ∧
        st'.pvp = st.pvp ∧ st'.support = st.support ∧ st'.closed = st.closed ∧
        (st'.warnings =
          if st.signal key + data.rows * data.cols >
              (w.Channels.getD i default).NumVectors * (w.Channels.getD i default).NumSamples then
            st.warnings + 1
          else st.warnings) ∧
        (∀ q c, r0.toNat ≤ q → q < r0.toNat + data.rows → c0.toNat ≤ c →
            c < c0.toNat + data.cols →
          st'.signalMem key q c = data.entry (q - r0.toNat) (c - c0.toNat)) ∧
        (∀ id q c, ¬(id = key ∧ r0.toNat ≤ q ∧ q < r0.toNat + data.rows ∧
            c0.toNat ≤ c ∧ c < c0.toNat + data.cols) →
          st'.signalMem id q c = st.signalMem id q c)) := by
  have hib2 : ¬ data.itemBytes ≠ w.signalItemSize := by simp [hib]
  refine ⟨?_, ?_, ?_⟩
  · intro hneg
    unfold write_signal
    simp only [hvi, hvk, bind, Except.bind]
    rw [if_neg hib2, if_pos hneg]
    rfl
  · intro hr hc hgt
    unfold write_signal
    simp only [hvi, hvk, bind, Except.bind]
    rw [if_neg hib2, if_neg (by omega : ¬ (r0 < 0 ∨ c0 < 0)), if_pos hgt]
    rfl
  · intro hr hc hler hlec
    refine ⟨{ st with
      signalMem := fun id r c =>
        if id = key ∧ r0.toNat ≤ r ∧ r < r0.toNat + data.rows ∧
            c0.toNat ≤ c ∧ c < c0.toNat + data.cols then
          data.entry (r - r0.toNat) (c - c0.toNat)
        else st.signalMem id r c
      signal := fun id =>
        if id = key then st.signal key + data.rows * data.cols else st.signal id
      warnings :=
        if st.signal key + data.rows * data.cols >
            (w.Channels.getD i default).NumVectors * (w.Channels.getD i default).NumSamples then
          st.warnings + 1
        else st.warnings }, ?_, ?_, ?_, rfl, rfl, rfl, rfl, ?_, ?_⟩
    · unfold write_signal
      simp only [hvi, hvk, bind, Except.bind]
      rw [if_neg hib2, if_neg (by omega : ¬ (r0 < 0 ∨ c0 < 0)),
        if_neg (by omega :
          ¬ ((r0 + data.rows : Int) > ((w.Channels.getD i default).NumVectors : Int) ∨
            (c0 + data.cols : Int) > ((w.Channels.getD i default).NumSamples : Int)))]
      rfl
    · simp
    · intro id hid
      simp [hid]
    · intro q c h1 h2 h3 h4
      simp [h1, h2, h3, h4]
    · intro id q c hn
      simp only []
      rw [if_neg hn]

theorem write_support_block_spec (w : WriterMeta) (st : WState) (identifier : PyIndex)
    (data : Mat2) (r0 c0 : Int) (i : Nat) (key : String)
    (hvi : w.validate_support_index identifier = .ok i)
    (hvk : w.validate_support_key identifier = .ok key)
    (hib : data.itemBytes = ((w.SupportArrays.getD []).getD i default).BytesPerElement) :
    (r0 < 0 ∨ c0 < 0 →
      write_support_block w st identifier data (r0, c0) = .error .indexErr) ∧
    (0 ≤ r0 → 0 ≤ c0 →
      ((r0 + data.rows : Int) > ((w.SupportArrays.getD []).getD i default).NumRows ∨
        (c0 + data.cols : Int) > ((w.SupportArrays.getD []).getD i default).NumCols) →
      write_support_block w st identifier data (r0, c0) = .error .indexErr) ∧
    (0 ≤ r0 → 0 ≤ c0 →
      (r0 + data.rows : Int) ≤ ((w.SupportArrays.getD []).getD i default).NumRows →
      (c0 + data.cols : Int) ≤ ((w.SupportArrays.getD []).getD i default).NumCols →
      ∃ st', write_support_block w st identifier data (r0, c0) = .ok st' ∧
        st'.support key = st.support key + data.rows * data.cols ∧
        (∀ id, id ≠ key → st'.support id = st.support id) ∧
        st'.pvp = st.pvp ∧ st'.signal = st.signal ∧ st'.closed = st.closed ∧
        (st'.warnings =
          if st.support key + data.rows * data.cols >
              ((w.SupportArrays.getD []).getD i default).NumRows *
                ((w.SupportArrays.getD []).getD i default).NumCols then
            st.warnings + 1
          else st.warnings) ∧
        (∀ q c, r0.toNat ≤ q → q < r0.toNat + data.rows → c0.toNat ≤ c →
            c < c0.toNat + data.cols →
          st'.supportMem key q c = data.entry (q - r0.toNat) (c - c0.toNat)) ∧
        (∀ id q c, ¬(id = key ∧ r0.toNat ≤ q ∧ q < r0.toNat + data.rows ∧
            c0.toNat ≤ c ∧ c < c0.toNat + data.cols) →
          st'.supportMem id q c = st.supportMem id q c)) := by
  have hib2 : ¬ data.itemBytes ≠ ((w.SupportArrays.getD []).getD i default).BytesPerElement := by
    simp [hib]
  refine ⟨?_, ?_, ?_⟩
  · intro hneg
    unfold write_support_block
    simp only [hvi, hvk, bind, Except.bind]
    rw [if_neg hib2, if_pos hneg]
    rfl
  · intro hr hc hgt
    unfold write_support_block
    simp only [hvi, hvk, bind, Except.bind]
    rw [if_neg hib2, if_neg (by omega : ¬ (r0 < 0 ∨ c0 < 0)), if_pos hgt]
    rfl
  · intro hr hc hler hlec
    refine ⟨{ st with
      supportMem := fun id r c =>
        if id = key ∧ r0.toNat ≤ r ∧ r < r0.toNat + data.rows ∧
            c0.toNat ≤ c ∧ c < c0.toNat + data.cols then
          data.entry (r - r0.toNat) (c - c0.toNat)
        else st.supportMem id r c
      support := fun id =>
        if id = key then st.support key + data.rows * data.cols else st.support id
      warnings :=
        if st.support key + data.rows * data.cols >
            ((w.SupportArrays.getD []).getD i default).NumRows *
              ((w.SupportArrays.getD []).getD i default).NumCols then
          st.warnings + 1
        else st.warnings }, ?_, ?_, ?_, rfl, rfl, rfl, rfl, ?_, ?_⟩
    · unfold write_support_block
      simp only [hvi, hvk, bind, Except.bind]
      rw [if_neg hib2, if_neg (by omega : ¬ (r0 < 0 ∨ c0 < 0)),
        if_neg (by omega :
          ¬ ((r0 + data.rows : Int) > (((w.SupportArrays.getD []).getD i default).NumRows : Int) ∨
            (c0 + data.cols : Int) > (((w.SupportArrays.getD []).getD i default).NumCols : Int)))]
      rfl
    · simp
    · intro id hid
      simp [hid]
    · intro q c h1 h2 h3 h4
      simp [h1, h2, h3, h4]
    · intro id q c hn
      simp only []
      rw [if_neg hn]

/-- C7: each per-entity write operation (PVP rows via `write_pvp_block`,
signal pixels via `__call__`, support pixels via `write_support_block`)
rejects with `IndexError` — before any bytes are written, and with the
written-count state unchanged since the embedding returns an error carrying
no state — any request whose start index is negative or whose start plus
supplied extent exceeds the declared entry extent; a request within bounds
writes the supplied region into the memmap and increases exactly the target
identifier's written count by the supplied row/pixel count, and nothing
forces the supplied extent to reach the declared one, so partial writes are
accepted at write time. -/
theorem claimC7 :
    (∀ (w : WriterMeta) (st : WState) (identifier : PyIndex)
    (data : List Int) (start_index : Int) (i : Nat) (key : String)
    (hvi : w.validate_channel_index identifier = .ok i)
    (hvk : w.validate_channel_key identifier = .ok key),
      (start_index < 0 → write_pvp_block w st identifier data start_index = .error .indexErr) ∧
    (0 ≤ start_index →
      (start_index + data.length : Int) > (w.Channels.getD i default).NumVectors →
      write_pvp_block w st identifier data start_index = .error .indexErr) ∧
    (0 ≤ start_index →
      (start_index + data.length : Int) ≤ (w.Channels.getD i default).NumVectors →
      ∃ st', write_pvp_block w st identifier data start_index = .ok st' ∧
        st'.pvp key = st.pvp key + data.length ∧
        (∀ id, id ≠ key → st'.pvp id = st.pvp id) ∧
        st'.signal = st.signal ∧ st'.support = st.support ∧ st'.closed = st.closed ∧
        (st'.warnings =
          if st.pvp key + data.length > (w.Channels.getD i default).NumVectors then
            st.warnings + 1
          else st.warnings) ∧
        (∀ q, start_index.toNat ≤ q → q < start_index.toNat + data.length →
          st'.pvpMem key q = data.getD (q - start_index.toNat) 0) ∧
        (∀ id q, ¬(id = key ∧ start_index.toNat ≤ q ∧ q < start_index.toNat + data.length) →
          st'.pvpMem id q = st.pvpMem id q))) ∧
    (∀ (w : WriterMeta) (st : WState) (identifier : PyIndex)
    (data : Mat2) (r0 c0 : Int) (i : Nat) (key : String)
    (hvi : w.validate_channel_index identifier = .ok i)
    (hvk : w.validate_channel_key identifier = .ok key)
    (hib : data.itemBytes = w.signalItemSize),
      (r0 < 0 ∨ c0 < 0 → write_signal w st data (r0, c0) identifier = .error .indexErr) ∧
    (0 ≤ r0 → 0 ≤ c0 →
      ((r0 + data.rows : Int) > (w.Channels.getD i default).NumVectors ∨
        (c0 + data.cols : Int) > (w.Channels.getD i default).NumSamples) →
      write_signal w st data (r0, c0) identifier = .error .indexErr) ∧
    (0 ≤ r0 → 0 ≤ c0 →
      (r0 + data.rows : Int) ≤ (w.Channels.getD i default).NumVectors →
      (c0 + data.cols : Int) ≤ (w.Channels.getD i default).NumSamples →
      ∃ st', write_signal w st data (r0, c0) identifier = .ok st' ∧
        st'.signal key = st.signal key + data.rows * data.cols ∧
        (∀ id, id ≠ key → st'.signal id = st.signal id) ∧
        st'.pvp = st.pvp ∧ st'.support = st.support ∧ st'.closed = st.closed ∧
        (st'.warnings =
          if st.signal key + data.rows * data.cols >
              (w.Channels.getD i default).NumVectors * (w.Channels.getD i default).NumSamples then
            st.warnings + 1
          else st.warnings) ∧
        (∀ q c, r0.toNat ≤ q → q < r0.toNat + data.rows → c0.toNat ≤ c →
            c < c0.toNat + data.cols →
          st'.signalMem key q c = data.entry (q - r0.toNat) (c - c0.toNat)) ∧
        (∀ id q c, ¬(id = key ∧ r0.toNat ≤ q ∧ q < r0.toNat + data.rows ∧
            c0.toNat ≤ c ∧ c < c0.toNat + data.cols) →
          st'.signalMem id q c = st.signalMem id q c))) ∧
    (∀ (w : WriterMeta) (st : WState) (identifier : PyIndex)
    (data : Mat2) (r0 c0 : Int) (i : Nat) (key : String)
    (hvi : w.validate_support_index identifier = .ok i)
    (hvk : w.validate_support_key identifier = .ok key)
    (hib : data.itemBytes = ((w.SupportArrays.getD []).getD i default).BytesPerElement),
      (r0 < 0 ∨ c0 < 0 →
      write_support_block w st identifier data (r0, c0) = .error .indexErr) ∧
    (0 ≤ r0 → 0 ≤ c0 →
      ((r0 + data.rows : Int) > ((w.SupportArrays.getD []).getD i default).NumRows ∨
        (c0 + data.cols : Int) > ((w.SupportArrays.getD []).getD i default).NumCols) →
      write_support_block w st identifier data (r0, c0) = .error .indexErr) ∧
    (0 ≤ r0 → 0 ≤ c0 →
      (r0 + data.rows : Int) ≤ ((w.SupportArrays.getD []).getD i default).NumRows →
      (c0 + data.cols : Int) ≤ ((w.SupportArrays.getD []).getD i default).NumCols →
      ∃ st', write_support_block w st identifier data (r0, c0) = .ok st' ∧
        st'.support key = st.support key + data.rows * data.cols ∧
        (∀ id, id ≠ key → st'.support id = st.support id) ∧
        st'.pvp = st.pvp ∧ st'.signal = st.signal ∧ st'.closed = st.closed ∧
        (st'.warnings =
          if st.support key + data.rows * data.cols >
              ((w.SupportArrays.getD []).getD i default).NumRows *
                ((w.SupportArrays.getD []).getD i default).NumCols then
            st.warnings + 1
          else st.warnings) ∧
        (∀ q c, r0.toNat ≤ q → q < r0.toNat + data.rows → c0.toNat ≤ c →
            c < c0.toNat + data.cols →
          st'.supportMem key q c = data.entry (q - r0.toNat) (c - c0.toNat)) ∧
        (∀ id q c, ¬(id = key ∧ r0.toNat ≤ q ∧ q < r0.toNat + data.rows ∧
            c0.toNat ≤ c ∧ c < c0.toNat + data.cols) →
          st'.supportMem id q c = st.supportMem id q c))) :=
  ⟨fun w st identifier data start_index i key hvi hvk =>
      write_pvp_block_spec w st identifier data start_index i key hvi hvk,
    fun w st identifier data r0 c0 i key hvi hvk hib =>
      write_signal_spec w st identifier data r0 c0 i key hvi hvk hib,
    fun w st identifier data r0 c0 i key hvi hvk hib =>
      write_support_block_spec w st identifier data r0 c0 i key hvi hvk hib⟩

/-- A concrete writer metadata and initial state for witnesses. -/
def wcx : WriterMeta :=
  { Channels := [⟨"CH0", 10, 2, 0, 0⟩]
    SupportArrays := some [⟨"SA0", 2, 3, 4, 0⟩]
    signalItemSize := 8 }

/-- The freshly initialized writing state (`_initialize_writing`): zero
written counts, unwritten memmaps, no warnings, not closed. -/
def wst0 : WState :=
  { pvp := fun _ => 0
    signal := fun _ => 0
    support := fun _ => 0
    pvpMem := fun _ _ => 0
    signalMem := fun _ _ _ => 0
    supportMem := fun _ _ _ => 0
    warnings := 0
    closed := false }

theorem claimC7_witness :
    write_pvp_block wcx wst0 (.str "CH0") [5, 6] (-1) = .error .indexErr ∧
    write_pvp_block wcx wst0 (.str "CH0") [5, 6] 9 = .error .indexErr ∧
    (∃ st', write_pvp_block wcx wst0 (.str "CH0") [5, 6] 0 = .ok st' ∧
      st'.pvp "CH0" = 2) := by
  have h := claimC7.1 wcx wst0 (.str "CH0") [5, 6] (-1) 0 "CH0" (by decide) (by decide)
  have h1 := claimC7.1 wcx wst0 (.str "CH0") [5, 6] 9 0 "CH0" (by decide) (by decide)
  have h2 := claimC7.1 wcx wst0 (.str "CH0") [5, 6] 0 0 "CH0" (by decide) (by decide)
  refine ⟨h.1 (by decide), h1.2.1 (by decide) (by decide), ?_⟩
  rcases h2.2.2 (by decide) (by decide) with ⟨st', heq, hcount, hrest⟩
  refine ⟨st', heq, ?_⟩
  rw [hcount]
  rfl

/-! ### C10 and C1: completeness accounting and the close() check -/

/-- A writer metadata with one channel of 10 vectors × 2 samples and no
support arrays. -/
def w1ns : WriterMeta :=
  { Channels := [⟨"CH0", 10, 2, 0, 0⟩]
    SupportArrays := none
    signalItemSize := 8 }

/-- A full 10×2 signal array of byte width 8. -/
def sigFull : Mat2 := ⟨10, 2, 8, fun _ _ => 7⟩

/-- C10: the completeness check is count-based, not coverage-based — an
accepted PVP write adds exactly its row count to the per-identifier counter
regardless of its start position, and warns exactly when the accumulated
count exceeds the declared total; concretely, writing the same 5 of 10
declared rows twice (plus a full signal write) satisfies the finalize
threshold and `close()` succeeds even though rows 5–9 were never written
(row 7 still holds its initial value), no warning having been emitted; one
more overlapping write pushes the count to 12 and emits the warning. -/
theorem claimC10 :
    (∀ (w : WriterMeta) (st : WState) (identifier : PyIndex) (data : List Int)
        (start_index : Int) (i : Nat) (key : String),
      w.validate_channel_index identifier = .ok i →
      w.validate_channel_key identifier = .ok key →
      0 ≤ start_index →
      (start_index + data.length : Int) ≤ (w.Channels.getD i default).NumVectors →
      ∃ st', write_pvp_block w st identifier data start_index = .ok st' ∧
        st'.pvp key = st.pvp key + data.length ∧
        (st'.warnings =
          if st.pvp key + data.length > (w.Channels.getD i default).NumVectors then
            st.warnings + 1
          else st.warnings)) ∧
    (∃ st1 st2 st3 st4,
      write_pvp_block w1ns wst0 (.str "CH0") [1, 2, 3, 4, 5] 0 = .ok st1 ∧
      write_pvp_block w1ns st1 (.str "CH0") [1, 2, 3, 4, 5] 0 = .ok st2 ∧
      st2.pvp "CH0" = 10 ∧
      write_signal w1ns st2 sigFull (0, 0) (.str "CH0") = .ok st3 ∧
      writerClose w1ns st3 = .ok { st3 with closed := true } ∧
      st3.pvpMem "CH0" 7 = 0 ∧
      st3.warnings = 0 ∧
      write_pvp_block w1ns st3 (.str "CH0") [8, 9] 0 = .ok st4 ∧
      st4.pvp "CH0" = 12 ∧
      st4.warnings = 1) := by
  constructor
  · intro w st identifier data start_index i key hvi hvk hpos hle
    rcases (write_pvp_block_spec w st identifier data start_index i key hvi hvk).2.2
        hpos hle with ⟨st', heq, hcount, hids, hsig, hsup, hcl, hwarn, hrest⟩
    exact ⟨st', heq, hcount, hwarn⟩
  · refine ⟨_, _, _, _, rfl, rfl, by decide, rfl, rfl, by decide, by decide, rfl,
      by decide, by decide⟩

/-- A writer metadata with one fully-writable channel and one declared
support array, for exhibiting the support-loop defect. -/
def w1bug : WriterMeta :=
  { Channels := [⟨"CH0", 1, 1, 0, 0⟩]
    SupportArrays := some [⟨"SA0", 1, 1, 4, 0⟩]
    signalItemSize := 8 }

/-- A writing state in which every declared entity of `w1bug` has been
fully written (1 PVP row, 1 signal pixel, 1 support pixel). -/
def stFullBug : WState :=
  { pvp := fun _ => 1
    signal := fun _ => 1
    support := fun _ => 1
    pvpMem := fun _ _ => 0
    signalMem := fun _ _ _ => 0
    supportMem := fun _ _ _ => 0
    warnings := 0
    closed := false }

/-- A state over `w1ns` with only 5 of the 10 declared PVP rows written
(signal complete). -/
def st5of10 : WState :=
  { pvp := fun _ => 5
    signal := fun _ => 20
    support := fun _ => 0
    pvpMem := fun _ _ => 0
    signalMem := fun _ _ _ => 0
    supportMem := fun _ _ _ => 0
    warnings := 0
    closed := false }

/-- A fully-written state over `w1ns`. -/
def stFull10 : WState :=
  { pvp := fun _ => 10
    signal := fun _ => 20
    support := fun _ => 0
    pvpMem := fun _ _ => 0
    signalMem := fun _ _ _ => 0
    supportMem := fun _ _ _ => 0
    warnings := 0
    closed := false }

/-- C1 (code bug): the shortfall direction of the claim holds — with 5 of
10 declared PVP rows written, `close()` raises the incomplete-write error
and the check names the channel and shortfall — and a fully-written writer
without support arrays closes cleanly; but for a metadata tree declaring a
support array, `_check_fully_written` sets `status = False` for every
iterated support entry before testing the shortfall (the guard at
cphd.py:1379 covers only the message), so a writer whose every channel and
support array is fully written (the spec-side predicate
`specFullyWritten` is `true`, and even the accumulated support message is
empty) still fails `close()` with the incomplete-write `IOError`,
contradicting the claim's converse direction. -/
theorem claimC1_code_bug :
    writerClose w1ns st5of10 = .error .incompleteWrite ∧
    (check_fully_written w1ns st5of10).pvp_message = [("CH0", 5, 10)] ∧
    writerClose w1ns stFull10 = .ok { stFull10 with closed := true } ∧
    specFullyWritten w1bug stFullBug = true ∧
    (check_fully_written w1bug stFullBug).status = false ∧
    (check_fully_written w1bug stFullBug).support_message = [] ∧
    writerClose w1bug stFullBug = .error .incompleteWrite := by
  refine ⟨rfl, by decide, rfl, by decide, by decide, by decide, rfl⟩

theorem claimC10_witness :
    ∃ st', write_pvp_block w1ns wst0 (.str "CH0") [1, 2, 3] 4 = .ok st' ∧
      st'.pvp "CH0" = 3 ∧ st'.warnings = 0 := by
  rcases claimC10.1 w1ns wst0 (.str "CH0") [1, 2, 3] 4 0 "CH0" (by decide) (by decide)
      (by decide) (by decide) with ⟨st', heq, hcount, hwarn⟩
  refine ⟨st', heq, ?_, ?_⟩
  · rw [hcount]
    rfl
  · rw [hwarn]
    decide

/-! ### C2: the bulk write -/

/-- A metadata tree whose declared support-array relative offsets are
`{0, 50, 40}` while each 5×5 entry of 2-byte elements spans 50 bytes — the
layout the claim says `write_all` must reject before writing. -/
def w050_40 : WriterMeta :=
  { Channels := [⟨"CH0", 2, 2, 0, 0⟩]
    SupportArrays := some
      [⟨"A", 5, 5, 2, 0⟩, ⟨"B", 5, 5, 2, 50⟩, ⟨"C", 5, 5, 2, 40⟩]
    signalItemSize := 8 }

/-- A full 2×2 signal array for `w050_40`'s channel. -/
def sig22 : Mat2 := ⟨2, 2, 8, fun _ _ => 3⟩

/-- A full 5×5 support array of 2-byte elements. -/
def m55 : Mat2 := ⟨5, 5, 2, fun _ _ => 9⟩

/-- C2 counterexample: on the metadata with declared support offsets
`{0, 50, 40}` — non-monotonic/overlapping given the 50-byte entry sizes —
`write_file` does not fail before any bytes are written: it succeeds and
performs every write (all written counts reach their totals), leaving the
writer unfinalized.  There is no upfront layout validation in
`CPHDWriter1_0.write_file`. -/
theorem claimC2_counterexample :
    ∃ st', write_file w050_40 wst0 [("CH0", [1, 2])] [("CH0", sig22)]
        (some [("A", m55), ("B", m55), ("C", m55)]) = .ok st' ∧
      st'.support "A" = 25 ∧ st'.support "B" = 25 ∧ st'.support "C" = 25 ∧
      st'.closed = false :=
  ⟨_, rfl, by decide, by decide, by decide, by decide⟩

/-- C2 (amended): `write_file` only performs the per-entity writes — each
supplied PVP array at start 0, each signal array at `(0, 0)`, each support
array at `(0, 0)`, in map order with only the per-write validation — and
neither validates the supplied identifier sets against the metadata, nor
checks the declared offset layout, nor finalizes: the `{0, 50, 40}` support
layout is written in full and the writer stays open, empty maps (missing
every declared identifier) are accepted, while an identifier unknown to the
metadata still fails with the per-write `KeyError`. -/
theorem claimC2 :
    (∃ st', write_file w050_40 wst0 [("CH0", [1, 2])] [("CH0", sig22)]
        (some [("A", m55), ("B", m55), ("C", m55)]) = .ok st' ∧
      st'.pvp "CH0" = 2 ∧ st'.signal "CH0" = 4 ∧
      st'.support "A" = 25 ∧ st'.support "B" = 25 ∧ st'.support "C" = 25 ∧
      st'.closed = false ∧ st'.warnings = 0) ∧
    write_file w050_40 wst0 [] [] none = .ok wst0 ∧
    write_file w050_40 wst0 [("BOGUS", [1])] [] none = .error .unknownIdentifier :=
  ⟨⟨_, rfl, by decide, by decide, by decide, by decide, by decide, by decide, by decide⟩,
    rfl, rfl⟩

end CPHD
